import Mathlib

/-!
Verification development for the Spark dicer voxel/SDF engine
(src/dicer/voxel.js).  The JavaScript source is shallowly embedded:
three.js Vector3 values become records of reals, JS numbers become reals,
JS throw becomes Except.error, and typed-array state becomes functional
state passing.
-/

namespace Spark

open scoped Classical

noncomputable section

/-- Model of a three.js Vector3 with real components. -/
structure Vec3 where
  x : ℝ
  y : ℝ
  z : ℝ

/-- Componentwise addition (Vector3.add). -/
def Vec3.add (a b : Vec3) : Vec3 := ⟨a.x + b.x, a.y + b.y, a.z + b.z⟩

/-- Componentwise subtraction (Vector3.sub). -/
def Vec3.sub (a b : Vec3) : Vec3 := ⟨a.x - b.x, a.y - b.y, a.z - b.z⟩

/-- Scalar multiple (Vector3.multiplyScalar). -/
def Vec3.smul (t : ℝ) (a : Vec3) : Vec3 := ⟨t * a.x, t * a.y, t * a.z⟩

/-- Add a scalar to every component (Vector3.addScalar). -/
def Vec3.addScalar (a : Vec3) (t : ℝ) : Vec3 := ⟨a.x + t, a.y + t, a.z + t⟩

/-- Dot product (Vector3.dot). -/
def Vec3.dot (a b : Vec3) : ℝ := a.x * b.x + a.y * b.y + a.z * b.z

/-- Squared length (Vector3.lengthSq). -/
def Vec3.normSq (a : Vec3) : ℝ := Vec3.dot a a

/-- Euclidean length (Vector3.length). -/
def Vec3.length (a : Vec3) : ℝ := Real.sqrt a.normSq

/-- Euclidean distance (Vector3.distanceTo). -/
def Vec3.distanceTo (a b : Vec3) : ℝ := (a.sub b).length

/-- Zero vector. -/
def Vec3.zero : Vec3 := ⟨0, 0, 0⟩

/-- Model of three.js Vector3.projectOnVector: projection of a onto v,
returning the zero vector when v has zero squared length. -/
def Vec3.projectOnVector (a v : Vec3) : Vec3 :=
  if v.normSq = 0 then Vec3.zero else Vec3.smul (Vec3.dot v a / v.normSq) v

/-- Model of three.js Vector3.projectOnPlane: subtract the projection onto
the plane normal. -/
def Vec3.projectOnPlane (a n : Vec3) : Vec3 := a.sub (a.projectOnVector n)

/-- Model of three.js Vector3.normalize, which divides by (length or 1):
a zero vector stays zero. -/
def Vec3.normalize (a : Vec3) : Vec3 :=
  if a.length = 0 then a else Vec3.smul (1 / a.length) a

/-- Positive part of a real (Math.max(v, 0)). -/
def posPart (a : ℝ) : ℝ := max a 0

/-- Two-argument Euclidean norm (Math.hypot). -/
def norm2 (a b : ℝ) : ℝ := Real.sqrt (a ^ 2 + b ^ 2)

/-- Three-argument Euclidean norm. -/
def norm3r (a b c : ℝ) : ℝ := Real.sqrt (a ^ 2 + b ^ 2 + c ^ 2)

/-- Clamp to the unit interval, as the clamp01 helper in createSdfElh:
Math.max(0, Math.min(1, t)). -/
def clamp01 (t : ℝ) : ℝ := max 0 (min 1 t)

/-- SDF returned by createSdfCylinder (voxel.js lines 73-88), after the
direction has been validated. -/
def sdfCylinder (p n : Vec3) (r h : ℝ) (x : Vec3) : ℝ :=
  let dx := x.sub p
  let dx1 := dx.dot n
  let dx2 := dx.projectOnPlane n
  let d1 := |dx1 - h * 0.5| - h * 0.5
  let d2 := dx2.length - r
  min (max d1 d2) 0 + norm2 (max d1 0) (max d2 0)

/-- SDF returned by createSdfElh (voxel.js lines 110-134), after the inputs
have been validated.  This real-valued model is faithful only for q ≠ p:
Lean's total division makes dx2.dot(dq) / dqLenSq zero when dqLenSq = 0,
whereas the JS 0/0 is NaN; sdfElhJs below models the degenerate case. -/
def sdfElh (p q n : Vec3) (r h : ℝ) (x : Vec3) : ℝ :=
  let dq := q.sub p
  let dqLenSq := dq.dot dq
  let dx := x.sub p
  let dx1 := n.dot dx
  let dx2 := dx.projectOnPlane n
  let d1 := |dx1 - h * 0.5| - h * 0.5
  let t := clamp01 (dx2.dot dq / dqLenSq)
  let d2 := dx2.distanceTo (Vec3.smul t dq) - r
  min (max d1 d2) 0 + norm2 (max d1 0) (max d2 0)

/-- SDF returned by createSdfBox (voxel.js lines 150-165), after the half
vectors have been validated. -/
def sdfBox (center halfVec0 halfVec1 halfVec2 : Vec3) (p : Vec3) : ℝ :=
  let unitVec0 := halfVec0.normalize
  let unitVec1 := halfVec1.normalize
  let unitVec2 := halfVec2.normalize
  let halfSize : Vec3 := ⟨halfVec0.length, halfVec1.length, halfVec2.length⟩
  let dp0 := p.sub center
  let dp : Vec3 :=
    ⟨|dp0.dot unitVec0| - halfSize.x, |dp0.dot unitVec1| - halfSize.y,
      |dp0.dot unitVec2| - halfSize.z⟩
  let dInside := min 0 (max dp.x (max dp.y dp.z))
  let dOutside := norm3r (max 0 dp.x) (max 0 dp.y) (max 0 dp.z)
  dInside + dOutside

/-- Shape objects as built by createCylinderShape, createELHShape and
createBoxShape. -/
inductive Shape where
  | cylinder (p n : Vec3) (r h : ℝ)
  | elh (p q n : Vec3) (r h : ℝ)
  | box (center halfVec0 halfVec1 halfVec2 : Vec3)

/-- Model of createSdf: dispatch on the shape tag, with the validation
throws of the individual factories becoming Except.error. -/
def createSdf : Shape → Except String (Vec3 → ℝ)
  | .cylinder p n r h =>
      if n.length ≠ 1 then .error "Cylinder direction not normalized"
      else .ok (sdfCylinder p n r h)
  | .elh p q n r h =>
      if n.length ≠ 1 then .error "ELH direction not normalized"
      else if (q.sub p).dot n ≠ 0 then .error "Invalid extrusion normal"
      else if q.distanceTo p < 0 then .error "Invalid p-q pair"
      else .ok (sdfElh p q n r h)
  | .box c h0 h1 h2 =>
      if h0.dot h1 ≠ 0 ∨ h0.dot h2 ≠ 0 ∨ h1.dot h2 ≠ 0 then
        .error "Half vectors must be perpendicular to each other"
      else .ok (sdfBox c h0 h1 h2)

/-- Shape-constructor preconditions as the claims state them: unit
directions, ELH perpendicularity, box orthogonality, nonnegative radius
and height. -/
def ShapeWF : Shape → Prop
  | .cylinder _ n r h => n.length = 1 ∧ 0 ≤ r ∧ 0 ≤ h
  | .elh p q n r h => n.length = 1 ∧ (q.sub p).dot n = 0 ∧ 0 ≤ r ∧ 0 ≤ h
  | .box _ h0 h1 h2 => h0.dot h1 = 0 ∧ h0.dot h2 = 0 ∧ h1.dot h2 = 0

/-- Nondegeneracy of a shape: an ELH needs distinct endpoints so that the
division by dqLenSq in createSdfElh is by a nonzero number; the cylinder
and box SDFs contain no such division.  The source validation does NOT
enforce this (q.distanceTo(p) < 0 at voxel.js line 106 is never true). -/
def ShapeNondeg : Shape → Prop
  | .elh p q _ _ _ => q ≠ p
  | _ => True

/-- A JS number that may be NaN: none models NaN, some v a real value. -/
abbrev JsNum : Type := Option ℝ

/-- JS subtraction where either operand may be NaN: arithmetic on NaN
yields NaN. -/
def jsSub : JsNum → JsNum → JsNum
  | some a, some b => some (a - b)
  | _, _ => none

/-- JS Math.abs where the operand may be NaN: Math.abs(NaN) is NaN. -/
def jsAbs : JsNum → JsNum
  | some a => some |a|
  | none => none

/-- The JS comparison a <= d where a may be NaN: every IEEE comparison
with NaN evaluates to false. -/
def jsLe : JsNum → ℝ → Prop
  | some a, d => a ≤ d
  | none, _ => False

/-- The IEEE-faithful value of the ELH SDF.  When dqLenSq (voxel.js line
111) is zero, dq is the zero vector, so the numerator dx2.dot(dq) at line
128 is exactly 0 and the JS division is 0/0 = NaN; the NaN then propagates
to the result: clamp01(NaN) = NaN because Math.min and Math.max return NaN
on a NaN argument, multiplyScalar(NaN) makes every component of temp2 NaN,
dx2.distanceTo of that vector is NaN, so d2 = NaN, and the combination
min(max(d1, NaN), 0) + hypot(max(d1, 0), max(NaN, 0)) is NaN (Math.hypot
returns NaN when an argument is NaN and none is infinite).  Hence for
dqLenSq = 0 the function returns NaN (none) at every point; for
dqLenSq different from 0 no NaN arises and the real-valued sdfElh is the
exact value. -/
def sdfElhJs (p q n : Vec3) (r h : ℝ) (x : Vec3) : JsNum :=
  if (q.sub p).dot (q.sub p) = 0 then none else some (sdfElh p q n r h x)

/-- createSdfElh with the IEEE-faithful result: the validation at voxel.js
lines 101-108 accepts q = p (the unit-direction check, the perpendicularity
check with the zero axis, and the vacuous distance check all pass), and the
returned closure is the possibly-NaN sdfElhJs. -/
def createSdfElhJs (p q n : Vec3) (r h : ℝ) : Except String (Vec3 → JsNum) :=
  if n.length ≠ 1 then .error "ELH direction not normalized"
  else if (q.sub p).dot n ≠ 0 then .error "Invalid extrusion normal"
  else if q.distanceTo p < 0 then .error "Invalid p-q pair"
  else .ok (sdfElhJs p q n r h)

/-- Degenerate ELH accepted by the source validation: p = q = 0, unit
direction along x, radius 1, height 1. -/
def wElhDeg : Shape := Shape.elh Vec3.zero Vec3.zero ⟨1, 0, 0⟩ 1 1

/-- Nondegenerate ELH with endpoints 0 and (0, 1, 0) and direction
(1, 0, 0) perpendicular to the axis. -/
def wElhGood : Shape := Shape.elh Vec3.zero ⟨0, 1, 0⟩ ⟨1, 0, 0⟩ 1 1

/-- CPU-backed voxel grid (class VoxelGridCpu).  The typed-array payload
becomes a total function from linear indices to cell values. -/
structure VoxelGridCpu (α : Type) where
  res : ℝ
  numX : Nat
  numY : Nat
  numZ : Nat
  ofs : Vec3
  data : Nat → α

/-- Linear index used by VoxelGridCpu.set and VoxelGridCpu.get. -/
def VoxelGridCpu.linIdx {α : Type} (g : VoxelGridCpu α) (ix iy iz : Nat) : Nat :=
  ix + iy * g.numX + iz * g.numX * g.numY

/-- Model of VoxelGridCpu.get. -/
def VoxelGridCpu.get {α : Type} (g : VoxelGridCpu α) (ix iy iz : Nat) : α :=
  g.data (g.linIdx ix iy iz)

/-- Model of VoxelGridCpu.set. -/
def VoxelGridCpu.set {α : Type} (g : VoxelGridCpu α) (ix iy iz : Nat) (v : α) :
    VoxelGridCpu α :=
  { g with data := fun j => if j = g.linIdx ix iy iz then v else g.data j }

/-- Model of VoxelGridCpu.centerOf:
new Vector3(ix, iy, iz).addScalar(0.5).multiplyScalar(res).add(ofs). -/
def VoxelGridCpu.centerOf {α : Type} (g : VoxelGridCpu α) (ix iy iz : Nat) : Vec3 :=
  (Vec3.smul g.res ((⟨(ix : ℝ), (iy : ℝ), (iz : ℝ)⟩ : Vec3).addScalar 0.5)).add g.ofs

/-- Center of a traversal block in traverseAllPointsInside:
new Vector3(bx, by, bz).addScalar(0.5).multiplyScalar(blockSize * res).add(ofs),
with blockSize = 8. -/
def blockCenter {α : Type} (g : VoxelGridCpu α) (bx byi bz : Nat) : Vec3 :=
  (Vec3.smul (8 * g.res) ((⟨(bx : ℝ), (byi : ℝ), (bz : ℝ)⟩ : Vec3).addScalar 0.5)).add g.ofs

/-- Block pruning radius in traverseAllPointsInside:
res * blockSize * 0.5 * sqrt 3. -/
def blockOffsetOf {α : Type} (g : VoxelGridCpu α) : ℝ :=
  g.res * 8 * 0.5 * Real.sqrt 3

/-- The list of surviving blocks built by the first phase of
traverseAllPointsInside, in push order (bz outermost, bx innermost).
Block counts per axis are floor(num/8) + 1. -/
def blockList {α : Type} (g : VoxelGridCpu α) (sdf : Vec3 → ℝ) (offset : ℝ) :
    List (Nat × Nat × Nat) :=
  (List.range (g.numZ / 8 + 1)).flatMap (fun bz =>
    (List.range (g.numY / 8 + 1)).flatMap (fun byi =>
      (List.range (g.numX / 8 + 1)).filterMap (fun bx =>
        if sdf (blockCenter g bx byi bz) ≤ blockOffsetOf g + offset then
          some (bx, byi, bz)
        else none)))

/-- The cells a surviving block contributes in the second phase of
traverseAllPointsInside: dz outermost, dx innermost, out-of-range indices
skipped by continue, and only cells with sdf(center) ≤ offset visited. -/
def blockCells {α : Type} (g : VoxelGridCpu α) (sdf : Vec3 → ℝ) (offset : ℝ)
    (b : Nat × Nat × Nat) : List (Nat × Nat × Nat) :=
  (List.range 8).flatMap (fun dz =>
    let iz := b.2.2 * 8 + dz
    if g.numZ ≤ iz then [] else
    (List.range 8).flatMap (fun dy =>
      let iy := b.2.1 * 8 + dy
      if g.numY ≤ iy then [] else
      (List.range 8).flatMap (fun dx =>
        let ix := b.1 * 8 + dx
        if g.numX ≤ ix then [] else
        if sdf (g.centerOf ix iy iz) ≤ offset then [(ix, iy, iz)] else [])))

/-- The full ordered list of cells on which traverseAllPointsInside invokes
its visitor (when the visitor never stops the traversal). -/
def visitList {α : Type} (g : VoxelGridCpu α) (sdf : Vec3 → ℝ) (offset : ℝ) :
    List (Nat × Nat × Nat) :=
  (blockList g sdf offset).flatMap (blockCells g sdf offset)

/-- Model of traverseAllPointsInside: fold the effectful visitor over the
visit list; a true result stops the traversal, and the function returns
whether it was stopped early. -/
def traverseAllPointsInside {α σ : Type} (g : VoxelGridCpu α) (sdf : Vec3 → ℝ)
    (offset : ℝ) (fn : σ → Nat × Nat × Nat → σ × Bool) (s0 : σ) : σ × Bool :=
  (visitList g sdf offset).foldl (fun acc c => if acc.2 then acc else fn acc.1 c)
    (s0, false)

/-- The grid produced by the traversal inside fillShape: the visitor sets
each visited cell to val and returns a falsy value. -/
def fillRun {α : Type} (g : VoxelGridCpu α) (sdf : Vec3 → ℝ) (offset : ℝ)
    (val : α) : VoxelGridCpu α :=
  (traverseAllPointsInside g sdf offset
    (fun gg c => (VoxelGridCpu.set gg c.1 c.2.1 c.2.2 val, false)) g).1

/-- Model of VoxelGridCpu.fillShape (voxel.js lines 306-322): build the SDF,
translate the round mode to an offset of plus or minus res*0.5*sqrt(3) or 0,
and set every visited cell; an unknown round mode throws. -/
def VoxelGridCpu.fillShape {α : Type} (g : VoxelGridCpu α) (shape : Shape)
    (val : α) (roundMode : String) : Except String (VoxelGridCpu α) :=
  match createSdf shape with
  | .error e => .error e
  | .ok sdf =>
    let halfDiag := g.res * 0.5 * Real.sqrt 3
    if roundMode = "outside" then .ok (fillRun g sdf halfDiag val)
    else if roundMode = "inside" then .ok (fillRun g sdf (-halfDiag) val)
    else if roundMode = "nearest" then .ok (fillRun g sdf 0 val)
    else .error "Unknown round mode"

/-- Grid metadata bound by every dispatch as the nums and ofs_res uniforms. -/
structure GpuMeta where
  res : ℝ
  numX : Nat
  numY : Nat
  numZ : Nat
  ofs : Vec3

/-- Number of cells of a device grid. -/
def GpuMeta.count (m : GpuMeta) : Nat := m.numX * m.numY * m.numZ

/-- WGSL decompose_ix from the grid snippet. -/
def decomposeIx (m : GpuMeta) (i : Nat) : Nat × Nat × Nat :=
  (i % m.numX, (i / m.numX) % m.numY, i / (m.numX * m.numY))

/-- WGSL compose_ix from the grid snippet. -/
def composeIx (m : GpuMeta) (v : Nat × Nat × Nat) : Nat :=
  v.1 + v.2.1 * m.numX + v.2.2 * m.numX * m.numY

/-- WGSL cell_center from the grid snippet (voxel.js lines 481-483):
vec3f(ix3) * ofs_res.w + ofs_res.xyz.  Note there is no 0.5 cell-center
shift here, unlike VoxelGridCpu.centerOf. -/
def cellCenterGpu (m : GpuMeta) (v : Nat × Nat × Nat) : Vec3 :=
  (Vec3.smul m.res ⟨(v.1 : ℝ), (v.2.1 : ℝ), (v.2.2 : ℝ)⟩).add m.ofs

/-- GPU-backed voxel grid: metadata plus buffer contents. -/
structure VoxelGridGpu (α : Type) where
  meta : GpuMeta
  data : Nat → α

/-- Heap of live device grids, addressed by identity; next is the next
fresh identifier.  Buffer identity matters because the dispatcher compares
buffers with JavaScript reference equality. -/
structure GpuStore (α : Type) where
  next : Nat
  mem : Nat → Option (VoxelGridGpu α)

/-- Overwrite a grid in the store. -/
def GpuStore.update {α : Type} (st : GpuStore α) (i : Nat) (gr : VoxelGridGpu α) :
    GpuStore α :=
  { st with mem := fun j => if j = i then some gr else st.mem j }

/-- Model of GpuKernels.createLike: allocate a fresh device grid with the
same metadata; WebGPU storage buffers are zero-initialized. -/
def GpuKernels.createLike {α : Type} [Zero α] (st : GpuStore α)
    (gr : VoxelGridGpu α) : GpuStore α × Nat :=
  ({ next := st.next + 1,
     mem := fun j => if j = st.next then some ⟨gr.meta, fun _ => 0⟩ else st.mem j },
   st.next)

/-- Model of GpuKernels.#checkGridCompat for one pair: sizes, then offset
components, then resolution; first mismatch throws. -/
def checkGridCompat (g1 g2 : GpuMeta) : Except String GpuMeta :=
  if g1.numX ≠ g2.numX ∨ g1.numY ≠ g2.numY ∨ g1.numZ ≠ g2.numZ then
    .error "Grid size mismatch"
  else if g1.ofs.x ≠ g2.ofs.x ∨ g1.ofs.y ≠ g2.ofs.y ∨ g1.ofs.z ≠ g2.ofs.z then
    .error "Grid offset mismatch"
  else if g1.res ≠ g2.res then .error "Grid resolution mismatch"
  else .ok g1

/-- Semantics of a compiled map pipeline for a registered body: every cell
index below the buffer length binds p = cell_center(decompose_ix(index)),
vi = in[index], and stores the body result to out[index]; other positions
of the out buffer are untouched. -/
def runMapKernel {α β : Type} (body : Vec3 → α → β) (m : GpuMeta)
    (din : Nat → α) (dout : Nat → β) : Nat → β :=
  fun j =>
    if j < m.count then body (cellCenterGpu m (decomposeIx m j)) (din j)
    else dout j

/-- Model of GpuKernels.map (voxel.js lines 861-895).  When out aliases in,
the source reassigns its local outBuf to a fresh temporary and dispatches
into it; the later copy-back guard compares inBuf with the reassigned
outBuf (line 887), so it can only fire if the temporary identifier happens
to equal the input identifier. -/
def GpuKernels.map {α : Type} [Zero α] (body : Vec3 → α → α) (inId outId0 : Nat)
    (st0 : GpuStore α) : Except String (GpuStore α) :=
  match st0.mem inId, st0.mem outId0 with
  | some gin, some gout0 =>
    match checkGridCompat gin.meta gout0.meta with
    | .error e => .error e
    | .ok grid =>
      let aliased := outId0 = inId
      let tmp : Option Nat := if aliased then some st0.next else none
      let st1 := if aliased then (GpuKernels.createLike st0 gin).1 else st0
      let outId := if aliased then st0.next else outId0
      let st2 :=
        match st1.mem outId with
        | some gOut =>
            st1.update outId ⟨gOut.meta, runMapKernel body grid gin.data gOut.data⟩
        | none => st1
      if inId = outId then
        match tmp with
        | some tmpId =>
          match st2.mem tmpId, st2.mem inId with
          | some gtmp, some ginNow =>
            .ok { next := st2.next,
                  mem := fun j =>
                    if j = tmpId then none
                    else if j = inId then some ⟨ginNow.meta, gtmp.data⟩
                    else st2.mem j }
          | _, _ => .error "copy failed"
        | none => .ok st2
      else .ok st2
  | _, _ => .error "Grid not found"

/-- Model of GpuKernels.map2 (voxel.js lines 904-944), with the same
aliasing structure and the same copy-back guards (lines 933-939) comparing
the input identifiers against the reassigned outBuf. -/
def GpuKernels.map2 {α : Type} [Zero α] (body : Vec3 → α → α → α)
    (in1 in2 outId0 : Nat) (st0 : GpuStore α) : Except String (GpuStore α) :=
  match st0.mem in1, st0.mem in2, st0.mem outId0 with
  | some g1, some g2, some gout0 =>
    match checkGridCompat g1.meta g2.meta with
    | .error e => .error e
    | .ok _ =>
      match checkGridCompat g1.meta gout0.meta with
      | .error e => .error e
      | .ok grid =>
        let tmp : Option Nat :=
          if outId0 = in1 then some st0.next
          else if outId0 = in2 then some st0.next else none
        let st1 :=
          if outId0 = in1 then (GpuKernels.createLike st0 g1).1
          else if outId0 = in2 then (GpuKernels.createLike st0 g2).1 else st0
        let outId :=
          if outId0 = in1 then st0.next
          else if outId0 = in2 then st0.next else outId0
        let st2 :=
          match st1.mem outId with
          | some gOut =>
              st1.update outId
                ⟨gOut.meta, fun j =>
                  if j < grid.count then
                    body (cellCenterGpu grid (decomposeIx grid j)) (g1.data j) (g2.data j)
                  else gOut.data j⟩
          | none => st1
        if in1 = outId ∨ in2 = outId then
          match tmp with
          | some tmpId =>
            match st2.mem tmpId, st2.mem (if in1 = outId then in1 else in2) with
            | some gtmp, some ginNow =>
              .ok { next := st2.next,
                    mem := fun j =>
                      if j = tmpId then none
                      else if j = (if in1 = outId then in1 else in2) then
                        some ⟨ginNow.meta, gtmp.data⟩
                      else st2.mem j }
            | _, _ => .error "copy failed"
          | none => .ok st2
        else .ok st2
  | _, _, _ => .error "Grid not found"

/-- Distance-field element: xyz is the adopted seed position, w the
distance (negative marks no seed known yet). -/
structure Vec4 where
  xyz : Vec3
  w : ℝ

/-- Body of the registered df_init map function. -/
def dfInitBody (p : Vec3) (vi : Nat) : Vec4 :=
  if 0 < vi then ⟨p, 0⟩ else ⟨Vec3.zero, -1⟩

/-- Body of the registered df_to_dist map function. -/
def dfToDistBody (_p : Vec3) (vi : Vec4) : ℝ := vi.w

/-- The six axis neighbor offsets of the jump-flood kernel, in source
order. -/
def jfOffsets : List (Int × Int × Int) :=
  [(-1, 0, 0), (1, 0, 0), (0, -1, 0), (0, 1, 0), (0, 0, -1), (0, 0, 1)]

/-- One loop iteration of the jump-flood kernel body: inspect the neighbor
at offset o * step from cell ix3, skipping it when out of bounds
(any(nix3 < 0) or any(nix3 >= nums)) or invalid (w < 0), and adopt its seed
when the current cell is invalid or the recomputed distance is smaller. -/
def jfStep (m : GpuMeta) (step : Nat) (df : Nat → Vec4) (ix3 : Nat × Nat × Nat)
    (p : Vec3) (sd : Vec4) (o : Int × Int × Int) : Vec4 :=
  let nx : Int := (ix3.1 : Int) + o.1 * (step : Int)
  let ny : Int := (ix3.2.1 : Int) + o.2.1 * (step : Int)
  let nz : Int := (ix3.2.2 : Int) + o.2.2 * (step : Int)
  if nx < 0 ∨ ny < 0 ∨ nz < 0 ∨ (m.numX : Int) ≤ nx ∨ (m.numY : Int) ≤ ny ∨
      (m.numZ : Int) ≤ nz then sd
  else
    let nix := composeIx m (nx.toNat, ny.toNat, nz.toNat)
    let nsd := df nix
    if nsd.w < 0 then sd
    else
      let nd := nsd.xyz.distanceTo p
      if sd.w < 0 ∨ nd < sd.w then ⟨nsd.xyz, nd⟩ else sd

/-- One invocation of the jump-flood kernel at cell ix, reading the
pre-pass distance field df.  Seeds (w = 0) return unchanged; otherwise the
six neighbors at the given step are scanned in order by jfStep. -/
def jumpFloodCell (m : GpuMeta) (step : Nat) (df : Nat → Vec4) (ix : Nat) : Vec4 :=
  let ix3 := decomposeIx m ix
  let p := cellCenterGpu m ix3
  let sd := df ix
  if sd.w = 0 then sd
  else jfOffsets.foldl (jfStep m step df ix3 p) sd

/-- Verification-only predicate: the neighbor of ix3 at offset o * step is
inside the grid and currently holds a valid (nonnegative-w) entry of df. -/
def jfNeighborOk (m : GpuMeta) (step : Nat) (df : Nat → Vec4)
    (ix3 : Nat × Nat × Nat) (o : Int × Int × Int) : Prop :=
  0 ≤ (ix3.1 : Int) + o.1 * (step : Int) ∧
  0 ≤ (ix3.2.1 : Int) + o.2.1 * (step : Int) ∧
  0 ≤ (ix3.2.2 : Int) + o.2.2 * (step : Int) ∧
  (ix3.1 : Int) + o.1 * (step : Int) < m.numX ∧
  (ix3.2.1 : Int) + o.2.1 * (step : Int) < m.numY ∧
  (ix3.2.2 : Int) + o.2.2 * (step : Int) < m.numZ ∧
  0 ≤ (df (composeIx m (((ix3.1 : Int) + o.1 * (step : Int)).toNat,
    ((ix3.2.1 : Int) + o.2.1 * (step : Int)).toNat,
    ((ix3.2.2 : Int) + o.2.2 * (step : Int)).toNat))).w

/-- One full jump-flood dispatch.  Every invocation reads the pre-pass
buffer: WGSL gives no visibility guarantee for same-dispatch writes of
other invocations, so this stale-read schedule is a valid execution of the
device code, and passes are separated by an explicit await in the host
loop. -/
def jumpFloodPass (m : GpuMeta) (step : Nat) (df : Nat → Vec4) : Nat → Vec4 :=
  fun ix => if ix < m.count then jumpFloodCell m step df ix else df ix

/-- Model of GpuKernels.distField (voxel.js lines 1069-1101): check grid
compatibility, df_init into a fresh zero-initialized vec4f grid, run
ceil(log2(max dimension)) jump-flood passes with halving steps, then
extract w into the output grid. -/
def GpuKernels.distField (seedGrid : VoxelGridGpu Nat) (distGrid : VoxelGridGpu ℝ) :
    Except String (VoxelGridGpu ℝ) :=
  match checkGridCompat seedGrid.meta distGrid.meta with
  | .error e => .error e
  | .ok grid =>
    let df0 := runMapKernel dfInitBody grid seedGrid.data (fun _ => ⟨Vec3.zero, 0⟩)
    let numPass := Nat.clog 2 (max grid.numX (max grid.numY grid.numZ))
    let dfN := (List.range numPass).foldl
      (fun df pass => jumpFloodPass grid (2 ^ (numPass - pass - 1)) df) df0
    .ok ⟨distGrid.meta, runMapKernel dfToDistBody grid dfN distGrid.data⟩

/-- Reduce pipelines registered by the GpuKernels constructor. -/
def registeredReduceFns : List String := ["min_ignore_invalid", "max_ignore_invalid"]

/-- Model of GpuKernels.reduce (voxel.js lines 952-996).  After the
registration check the source allocates two temporaries and then builds
its uniform buffer with an initializer that reads grid.numX; no binding
named grid exists anywhere in the function (its parameter is inBuf) or in
the module, so the call always throws a ReferenceError before any
dispatch. -/
def GpuKernels.reduce {α : Type} (fnName : String) (_inBuf : VoxelGridGpu α) :
    Except String ℝ :=
  if fnName ∉ registeredReduceFns then .error "Reduce fn not registered"
  else .error "ReferenceError: grid is not defined"

/-- Model of GpuKernels.boundOfAxis (voxel.js lines 1006-1016): reduce the
occupancy buffer itself with min_ignore_invalid and max_ignore_invalid
(the registered project_to_axis map is never applied), then widen by the
boundary offset.  Both reduce calls throw, so the function always
propagates the ReferenceError. -/
def GpuKernels.boundOfAxis {α : Type} (_dir : Vec3) (inBuf : VoxelGridGpu α)
    (boundary : String) : Except String (ℝ × ℝ) :=
  match GpuKernels.reduce "min_ignore_invalid" inBuf with
  | .error e => .error e
  | .ok mn =>
    match GpuKernels.reduce "max_ignore_invalid" inBuf with
    | .error e => .error e
    | .ok mx =>
      let maxVoxelCenterOfs := inBuf.meta.res * Real.sqrt 3 * 0.5
      if boundary = "in" then .ok (mn - (-maxVoxelCenterOfs), mx + (-maxVoxelCenterOfs))
      else if boundary = "out" then .ok (mn - maxVoxelCenterOfs, mx + maxVoxelCenterOfs)
      else if boundary = "nearest" then .ok (mn - 0, mx + 0)
      else .error "invalid boundary"

/-- Shared concrete 8x8x8 grid metadata with res = 1 and zero offset. -/
def meta8 : GpuMeta := ⟨1, 8, 8, 8, Vec3.zero⟩

/-- Concrete host grid with the meta8 geometry (used to compare cell-center
conventions). -/
def hostGrid8 : VoxelGridCpu ℝ := ⟨1, 8, 8, 8, Vec3.zero, fun _ => 0⟩

/-- Concrete u32 seed grid: a single seed at cell (0,0,0). -/
def seedGrid8 : VoxelGridGpu Nat := ⟨meta8, fun j => if j = 0 then 1 else 0⟩

/-- Concrete f32 output grid for distField. -/
def distGrid8 : VoxelGridGpu ℝ := ⟨meta8, fun _ => 0⟩

/-- A registered map body negating an f32 cell. -/
def negBody : Vec3 → ℝ → ℝ := fun _ v => -v

/-- Metadata of a one-cell grid. -/
def meta1 : GpuMeta := ⟨1, 1, 1, 1, Vec3.zero⟩

/-- Store holding one device grid (id 0) whose single cell is 2.0. -/
def c4storeA : GpuStore ℝ :=
  ⟨1, fun j => if j = 0 then some ⟨meta1, fun _ => 2⟩ else none⟩

/-- Store holding the same input grid (id 0) plus a fresh zero output grid
(id 1). -/
def c4storeB : GpuStore ℝ :=
  ⟨2, fun j =>
    if j = 0 then some ⟨meta1, fun _ => 2⟩
    else if j = 1 then some ⟨meta1, fun _ => 0⟩ else none⟩

/-- Store holding two grids with mismatched resolution (1 vs 2), for the
compatibility-check theorems. -/
def c9store : GpuStore ℝ :=
  ⟨2, fun j =>
    if j = 0 then some ⟨meta1, fun _ => 0⟩
    else if j = 1 then some ⟨⟨2, 1, 1, 1, Vec3.zero⟩, fun _ => 0⟩ else none⟩

/-- The inside and outside distance combination shared by the cylinder and
ELH SDFs: min(max(d1, d2), 0) + hypot(max(d1, 0), max(d2, 0)). -/
def combine2 (d1 d2 : ℝ) : ℝ :=
  min (max d1 d2) 0 + norm2 (max d1 0) (max d2 0)

/-- The inside and outside distance combination of the box SDF:
min(0, max(u, v, w)) + length of the componentwise positive part. -/
def combine3 (u v w : ℝ) : ℝ :=
  min 0 (max u (max v w)) + norm3r (max 0 u) (max 0 v) (max 0 w)

/-- The clamped segment parameter t computed by createSdfElh. -/
def segT (dq u : Vec3) : ℝ := clamp01 (u.dot dq / dq.dot dq)

/-- In-plane distance from u to the segment from the origin to dq, computed
as createSdfElh does: distance to the clamped projection point. -/
def segDist (dq u : Vec3) : ℝ := u.distanceTo (Vec3.smul (segT dq u) dq)

/-- L1 norm of a cell coordinate triple, used to bound jump-flood seed
propagation. -/
def cellL1 (c : Nat × Nat × Nat) : Nat := c.1 + c.2.1 + c.2.2

/-- Concrete one-cell host grid used to instantiate universally quantified
theorems. -/
def wGrid1 : VoxelGridCpu Nat := ⟨1, 1, 1, 1, Vec3.zero, fun _ => 0⟩

/-- Concrete axis-aligned unit box shape. -/
def wBox : Shape := Shape.box Vec3.zero ⟨1, 0, 0⟩ ⟨0, 1, 0⟩ ⟨0, 0, 1⟩

/-- Concrete x-axis cylinder shape. -/
def wCyl : Shape := Shape.cylinder Vec3.zero ⟨1, 0, 0⟩ 1 2

/-- Concrete occupancy grid with only cell (3,5,2) non-zero, as in the
boundOfAxis example. -/
def c3grid : VoxelGridGpu Nat :=
  ⟨meta8, fun j => if j = composeIx meta8 (3, 5, 2) then 1 else 0⟩

/-!
Scalar toolkit: square roots and the two- and three-argument Euclidean
norms.
-/

theorem sqrt_le_of_sq_le {x s : ℝ} (hs : 0 ≤ s) (h : x ≤ s ^ 2) :
    Real.sqrt x ≤ s := by
  calc Real.sqrt x ≤ Real.sqrt (s ^ 2) := Real.sqrt_le_sqrt h
    _ = s := Real.sqrt_sq hs

theorem le_sqrt_of_sq_le {x s : ℝ} (hs : 0 ≤ s) (h : s ^ 2 ≤ x) :
    s ≤ Real.sqrt x := by
  have h2 := Real.sqrt_le_sqrt h
  rwa [Real.sqrt_sq hs] at h2

theorem norm2_nonneg (a b : ℝ) : 0 ≤ norm2 a b := Real.sqrt_nonneg _

theorem sq_norm2 (a b : ℝ) : norm2 a b ^ 2 = a ^ 2 + b ^ 2 :=
  Real.sq_sqrt (by positivity)

theorem abs_le_norm2_left (a b : ℝ) : |a| ≤ norm2 a b := by
  rw [← Real.sqrt_sq_eq_abs]
  exact Real.sqrt_le_sqrt (by nlinarith [sq_nonneg b])

theorem abs_le_norm2_right (a b : ℝ) : |b| ≤ norm2 a b := by
  rw [← Real.sqrt_sq_eq_abs]
  exact Real.sqrt_le_sqrt (by nlinarith [sq_nonneg a])

theorem norm2_mono {a b c d : ℝ} (h1 : |a| ≤ |c|) (h2 : |b| ≤ |d|) :
    norm2 a b ≤ norm2 c d := by
  apply Real.sqrt_le_sqrt
  have ha : a ^ 2 ≤ c ^ 2 := by
    have h3 := pow_le_pow_left₀ (abs_nonneg a) h1 2
    simpa [sq_abs] using h3
  have hb : b ^ 2 ≤ d ^ 2 := by
    have h3 := pow_le_pow_left₀ (abs_nonneg b) h2 2
    simpa [sq_abs] using h3
  linarith

theorem norm2_triangle (a b c d : ℝ) :
    norm2 (a + c) (b + d) ≤ norm2 a b + norm2 c d := by
  apply sqrt_le_of_sq_le (add_nonneg (norm2_nonneg a b) (norm2_nonneg c d))
  have hcs : a * c + b * d ≤ norm2 a b * norm2 c d := by
    have h1 : (a * c + b * d) ^ 2 ≤ (a ^ 2 + b ^ 2) * (c ^ 2 + d ^ 2) := by
      nlinarith [sq_nonneg (a * d - b * c)]
    have h2 : a * c + b * d ≤ |a * c + b * d| := le_abs_self _
    have h3 : |a * c + b * d| = Real.sqrt ((a * c + b * d) ^ 2) :=
      (Real.sqrt_sq_eq_abs _).symm
    have h4 : Real.sqrt ((a * c + b * d) ^ 2) ≤
        Real.sqrt ((a ^ 2 + b ^ 2) * (c ^ 2 + d ^ 2)) := Real.sqrt_le_sqrt h1
    have h5 : Real.sqrt ((a ^ 2 + b ^ 2) * (c ^ 2 + d ^ 2)) = norm2 a b * norm2 c d := by
      rw [norm2, norm2, ← Real.sqrt_mul (by positivity)]
    linarith
  have e1 := sq_norm2 a b
  have e2 := sq_norm2 c d
  nlinarith [norm2_nonneg a b, norm2_nonneg c d]

theorem norm2_sub_comm (a b c d : ℝ) : norm2 (a - c) (b - d) = norm2 (c - a) (d - b) := by
  rw [norm2, norm2]
  congr 1
  ring

theorem norm2_sub_le (a b c d : ℝ) : norm2 a b - norm2 c d ≤ norm2 (a - c) (b - d) := by
  have h := norm2_triangle (a - c) (b - d) c d
  have h2 : norm2 (a - c + c) (b - d + d) = norm2 a b := by norm_num
  linarith [h2 ▸ h]

theorem norm3r_nonneg (a b c : ℝ) : 0 ≤ norm3r a b c := Real.sqrt_nonneg _

theorem sq_norm3r (a b c : ℝ) : norm3r a b c ^ 2 = a ^ 2 + b ^ 2 + c ^ 2 :=
  Real.sq_sqrt (by positivity)

theorem norm3r_mono {a b c a2 b2 c2 : ℝ} (h1 : |a| ≤ |a2|) (h2 : |b| ≤ |b2|)
    (h3 : |c| ≤ |c2|) : norm3r a b c ≤ norm3r a2 b2 c2 := by
  apply Real.sqrt_le_sqrt
  have ha : a ^ 2 ≤ a2 ^ 2 := by
    have h4 := pow_le_pow_left₀ (abs_nonneg a) h1 2
    simpa [sq_abs] using h4
  have hb : b ^ 2 ≤ b2 ^ 2 := by
    have h4 := pow_le_pow_left₀ (abs_nonneg b) h2 2
    simpa [sq_abs] using h4
  have hc : c ^ 2 ≤ c2 ^ 2 := by
    have h4 := pow_le_pow_left₀ (abs_nonneg c) h3 2
    simpa [sq_abs] using h4
  linarith

theorem norm3r_triangle (a b c d e f : ℝ) :
    norm3r (a + d) (b + e) (c + f) ≤ norm3r a b c + norm3r d e f := by
  apply sqrt_le_of_sq_le (add_nonneg (norm3r_nonneg a b c) (norm3r_nonneg d e f))
  have hcs : a * d + b * e + c * f ≤ norm3r a b c * norm3r d e f := by
    have h1 : (a * d + b * e + c * f) ^ 2 ≤
        (a ^ 2 + b ^ 2 + c ^ 2) * (d ^ 2 + e ^ 2 + f ^ 2) := by
      nlinarith [sq_nonneg (a * e - b * d), sq_nonneg (a * f - c * d),
        sq_nonneg (b * f - c * e)]
    have h2 : a * d + b * e + c * f ≤ |a * d + b * e + c * f| := le_abs_self _
    have h3 : |a * d + b * e + c * f| = Real.sqrt ((a * d + b * e + c * f) ^ 2) :=
      (Real.sqrt_sq_eq_abs _).symm
    have h4 : Real.sqrt ((a * d + b * e + c * f) ^ 2) ≤
        Real.sqrt ((a ^ 2 + b ^ 2 + c ^ 2) * (d ^ 2 + e ^ 2 + f ^ 2)) :=
      Real.sqrt_le_sqrt h1
    have h5 : Real.sqrt ((a ^ 2 + b ^ 2 + c ^ 2) * (d ^ 2 + e ^ 2 + f ^ 2)) =
        norm3r a b c * norm3r d e f := by
      rw [norm3r, norm3r, ← Real.sqrt_mul (by positivity)]
    linarith
  have e1 := sq_norm3r a b c
  have e2 := sq_norm3r d e f
  nlinarith [norm3r_nonneg a b c, norm3r_nonneg d e f]

theorem norm3r_sub_comm (a b c d e f : ℝ) :
    norm3r (a - d) (b - e) (c - f) = norm3r (d - a) (e - b) (f - c) := by
  rw [norm3r, norm3r]
  congr 1
  ring

theorem norm3r_sub_le (a b c d e f : ℝ) :
    norm3r a b c - norm3r d e f ≤ norm3r (a - d) (b - e) (c - f) := by
  have h := norm3r_triangle (a - d) (b - e) (c - f) d e f
  have h2 : norm3r (a - d + d) (b - e + e) (c - f + f) = norm3r a b c := by norm_num
  linarith [h2 ▸ h]

theorem abs_max_zero_sub (a b : ℝ) : |max a 0 - max b 0| ≤ |a - b| := by
  rcases le_total a 0 with ha | ha <;> rcases le_total b 0 with hb | hb
  · rw [max_eq_right ha, max_eq_right hb]
    simp [abs_nonneg]
  · rw [max_eq_right ha, max_eq_left hb, abs_of_nonpos (by linarith),
      abs_of_nonpos (by linarith : a - b ≤ 0)]
    linarith
  · rw [max_eq_left ha, max_eq_right hb, abs_of_nonneg (by linarith),
      abs_of_nonneg (by linarith : 0 ≤ a - b)]
    linarith
  · rw [max_eq_left ha, max_eq_left hb]

/-!
Vec3 algebra: componentwise extensionality, Cauchy-Schwarz, triangle
inequalities, the orthogonal axial/planar decomposition for a unit
direction, and the Bessel inequality used by the box SDF.
-/

theorem Vec3.ext_comp {a b : Vec3} (hx : a.x = b.x) (hy : a.y = b.y)
    (hz : a.z = b.z) : a = b := by
  cases a
  cases b
  simp_all

theorem Vec3.normSq_nonneg (a : Vec3) : 0 ≤ a.normSq := by
  simp only [Vec3.normSq, Vec3.dot]
  nlinarith [sq_nonneg a.x, sq_nonneg a.y, sq_nonneg a.z]

theorem Vec3.length_nonneg (a : Vec3) : 0 ≤ a.length := Real.sqrt_nonneg _

theorem Vec3.sq_length (a : Vec3) : a.length ^ 2 = a.normSq :=
  Real.sq_sqrt a.normSq_nonneg

theorem Vec3.normSq_of_length_zero {a : Vec3} (h : a.length = 0) : a.normSq = 0 := by
  have h2 := Vec3.sq_length a
  rw [h] at h2
  simpa using h2.symm

theorem Vec3.dot_le_mul_length (u v : Vec3) : u.dot v ≤ u.length * v.length := by
  have h1 : (u.dot v) ^ 2 ≤ u.normSq * v.normSq := by
    simp only [Vec3.dot, Vec3.normSq]
    nlinarith [sq_nonneg (u.x * v.y - u.y * v.x), sq_nonneg (u.x * v.z - u.z * v.x),
      sq_nonneg (u.y * v.z - u.z * v.y)]
  have h2 : u.dot v ≤ |u.dot v| := le_abs_self _
  have h3 : |u.dot v| = Real.sqrt ((u.dot v) ^ 2) := (Real.sqrt_sq_eq_abs _).symm
  have h4 : Real.sqrt ((u.dot v) ^ 2) ≤ Real.sqrt (u.normSq * v.normSq) :=
    Real.sqrt_le_sqrt h1
  have h5 : Real.sqrt (u.normSq * v.normSq) = u.length * v.length := by
    rw [Vec3.length, Vec3.length, ← Real.sqrt_mul (Vec3.normSq_nonneg u)]
  linarith

theorem Vec3.length_add_le (u v : Vec3) : (u.add v).length ≤ u.length + v.length := by
  apply sqrt_le_of_sq_le (add_nonneg u.length_nonneg v.length_nonneg)
  have h1 := Vec3.dot_le_mul_length u v
  have h2 := Vec3.sq_length u
  have h3 := Vec3.sq_length v
  have h4 : (u.add v).normSq = u.normSq + 2 * u.dot v + v.normSq := by
    simp only [Vec3.add, Vec3.normSq, Vec3.dot]
    ring
  nlinarith

theorem Vec3.sub_length_comm (u v : Vec3) : (u.sub v).length = (v.sub u).length := by
  rw [Vec3.length, Vec3.length]
  congr 1
  simp only [Vec3.sub, Vec3.normSq, Vec3.dot]
  ring

theorem Vec3.sub_add_cancel3 (u v : Vec3) : (u.sub v).add v = u := by
  apply Vec3.ext_comp <;> simp [Vec3.sub, Vec3.add]

theorem Vec3.abs_length_sub_le (u v : Vec3) : |u.length - v.length| ≤ (u.sub v).length := by
  rw [abs_sub_le_iff]
  constructor
  · have h := Vec3.length_add_le (u.sub v) v
    rw [Vec3.sub_add_cancel3] at h
    linarith
  · have h := Vec3.length_add_le (v.sub u) u
    rw [Vec3.sub_add_cancel3] at h
    rw [Vec3.sub_length_comm v u] at h
    linarith

theorem dist3_triangle (u v w : Vec3) :
    (u.sub w).length ≤ (u.sub v).length + (v.sub w).length := by
  have h := Vec3.length_add_le (u.sub v) (v.sub w)
  have h2 : (u.sub v).add (v.sub w) = u.sub w := by
    apply Vec3.ext_comp <;> (simp only [Vec3.sub, Vec3.add]; ring)
  rw [h2] at h
  exact h

theorem normSq_of_length_one {n : Vec3} (hn : n.length = 1) : n.normSq = 1 := by
  have h := Vec3.sq_length n
  rw [hn] at h
  simpa using h.symm

theorem proj_decomp {n : Vec3} (hn : n.normSq = 1) (v : Vec3) :
    (v.dot n) ^ 2 + (v.projectOnPlane n).normSq = v.normSq := by
  have hne : n.normSq ≠ 0 := by rw [hn]; norm_num
  have hcomp : n.x * n.x + n.y * n.y + n.z * n.z = 1 := by
    simpa [Vec3.normSq, Vec3.dot] using hn
  simp only [Vec3.projectOnPlane, Vec3.projectOnVector, if_neg hne, hn]
  simp only [Vec3.normSq, Vec3.dot, Vec3.sub, Vec3.smul]
  field_simp
  linear_combination ((n.x * v.x + n.y * v.y + n.z * v.z) ^ 2) * hcomp

theorem projPlane_sub {n : Vec3} (hn : n.normSq = 1) (u v : Vec3) :
    (u.projectOnPlane n).sub (v.projectOnPlane n) = (u.sub v).projectOnPlane n := by
  have hne : n.normSq ≠ 0 := by rw [hn]; norm_num
  simp only [Vec3.projectOnPlane, Vec3.projectOnVector, if_neg hne, hn]
  apply Vec3.ext_comp <;> (simp only [Vec3.sub, Vec3.smul, Vec3.dot]; field_simp; ring)

theorem norm2_decomp {n : Vec3} (hn : n.normSq = 1) (d : Vec3) :
    norm2 (d.dot n) (d.projectOnPlane n).length = d.length := by
  simp only [norm2, Vec3.length]
  congr 1
  rw [Real.sq_sqrt (Vec3.normSq_nonneg _)]
  exact proj_decomp hn d

theorem normalize_normSq_le_one (a : Vec3) : a.normalize.normSq ≤ 1 := by
  simp only [Vec3.normalize]
  by_cases h : a.length = 0
  · simp only [if_pos h]
    rw [Vec3.normSq_of_length_zero h]
    norm_num
  · simp only [if_neg h]
    have hpos : 0 < a.length := lt_of_le_of_ne a.length_nonneg (Ne.symm h)
    have h3 : (Vec3.smul (1 / a.length) a).normSq = (1 / a.length) ^ 2 * a.normSq := by
      simp only [Vec3.smul, Vec3.normSq, Vec3.dot]
      ring
    rw [h3, ← Vec3.sq_length a]
    have h4 : (1 / a.length) ^ 2 * a.length ^ 2 = 1 := by field_simp
    rw [h4]

theorem dot_smul_smul (s t : ℝ) (a b : Vec3) :
    (Vec3.smul s a).dot (Vec3.smul t b) = s * t * a.dot b := by
  simp only [Vec3.smul, Vec3.dot]
  ring

theorem dot_smul_right (t : ℝ) (a b : Vec3) :
    a.dot (Vec3.smul t b) = t * a.dot b := by
  simp only [Vec3.smul, Vec3.dot]
  ring

theorem dot_smul_left (s : ℝ) (a b : Vec3) :
    (Vec3.smul s a).dot b = s * a.dot b := by
  simp only [Vec3.smul, Vec3.dot]
  ring

theorem normalize_dot_zero {a b : Vec3} (h : a.dot b = 0) :
    a.normalize.dot b.normalize = 0 := by
  simp only [Vec3.normalize]
  by_cases ha : a.length = 0
  · by_cases hb : b.length = 0
    · rw [if_pos ha, if_pos hb, h]
    · rw [if_pos ha, if_neg hb, dot_smul_right, h, mul_zero]
  · by_cases hb : b.length = 0
    · rw [if_neg ha, if_pos hb, dot_smul_left, h, mul_zero]
    · rw [if_neg ha, if_neg hb, dot_smul_smul, h, mul_zero]

theorem bessel3 (u0 u1 u2 d : Vec3) (h01 : u0.dot u1 = 0) (h02 : u0.dot u2 = 0)
    (h12 : u1.dot u2 = 0) (n0 : u0.normSq ≤ 1) (n1 : u1.normSq ≤ 1)
    (n2 : u2.normSq ≤ 1) :
    (d.dot u0) ^ 2 + (d.dot u1) ^ 2 + (d.dot u2) ^ 2 ≤ d.normSq := by
  have hres := Vec3.normSq_nonneg (d.sub ((Vec3.smul (d.dot u0) u0).add
    ((Vec3.smul (d.dot u1) u1).add (Vec3.smul (d.dot u2) u2))))
  have hexp : (d.sub ((Vec3.smul (d.dot u0) u0).add
      ((Vec3.smul (d.dot u1) u1).add (Vec3.smul (d.dot u2) u2)))).normSq
      = d.normSq - 2 * ((d.dot u0) ^ 2 + (d.dot u1) ^ 2 + (d.dot u2) ^ 2)
        + ((d.dot u0) ^ 2 * u0.normSq + (d.dot u1) ^ 2 * u1.normSq
          + (d.dot u2) ^ 2 * u2.normSq)
        + 2 * ((d.dot u0) * (d.dot u1) * (u0.dot u1)
          + (d.dot u0) * (d.dot u2) * (u0.dot u2)
          + (d.dot u1) * (d.dot u2) * (u1.dot u2)) := by
    simp only [Vec3.normSq, Vec3.dot, Vec3.sub, Vec3.add, Vec3.smul]
    ring
  rw [h01, h02, h12] at hexp
  nlinarith [hres, hexp, sq_nonneg (d.dot u0), sq_nonneg (d.dot u1), sq_nonneg (d.dot u2),
    mul_nonneg (sq_nonneg (d.dot u0)) (by linarith : (0:ℝ) ≤ 1 - u0.normSq),
    mul_nonneg (sq_nonneg (d.dot u1)) (by linarith : (0:ℝ) ≤ 1 - u1.normSq),
    mul_nonneg (sq_nonneg (d.dot u2)) (by linarith : (0:ℝ) ≤ 1 - u2.normSq)]

/-!
Lipschitz continuity of the inside/outside distance combinations.
-/

theorem combine2_of_nonpos {u v : ℝ} (hu : u ≤ 0) (hv : v ≤ 0) :
    combine2 u v = max u v := by
  rw [combine2, min_eq_left (max_le hu hv), max_eq_right hu, max_eq_right hv]
  simp [norm2]

theorem combine2_of_pos {u v : ℝ} (h : 0 < max u v) :
    combine2 u v = norm2 (max u 0) (max v 0) := by
  rw [combine2, min_eq_right h.le, zero_add]

theorem key_mixed2 {a b m du dv : ℝ} (ha : 0 ≤ a) (hb : 0 ≤ b) (hm : 0 ≤ m)
    (h1 : a = 0 ∨ a + m ≤ du) (h2 : b = 0 ∨ b + m ≤ dv) (hpos : 0 < a ∨ 0 < b) :
    norm2 a b + m ≤ norm2 du dv := by
  have hs0 : 0 ≤ norm2 a b := norm2_nonneg a b
  have hsq := sq_norm2 a b
  have hsle : norm2 a b ≤ a + b :=
    sqrt_le_of_sq_le (by linarith) (by nlinarith [mul_nonneg ha hb])
  apply le_sqrt_of_sq_le (by linarith)
  rcases h1 with h1 | h1 <;> rcases h2 with h2 | h2
  · rcases hpos with hp | hp <;> [linarith; linarith]
  · subst h1
    nlinarith [sq_nonneg du, sq_nonneg (dv - (b + m))]
  · subst h2
    nlinarith [sq_nonneg dv, sq_nonneg (du - (a + m))]
  · nlinarith [sq_nonneg (du - (a + m)), sq_nonneg (dv - (b + m))]

theorem key_mixed3 {a b c m du dv dw : ℝ} (ha : 0 ≤ a) (hb : 0 ≤ b) (hc : 0 ≤ c)
    (hm : 0 ≤ m) (h1 : a = 0 ∨ a + m ≤ du) (h2 : b = 0 ∨ b + m ≤ dv)
    (h3 : c = 0 ∨ c + m ≤ dw) (hpos : 0 < a ∨ 0 < b ∨ 0 < c) :
    norm3r a b c + m ≤ norm3r du dv dw := by
  have hs0 : 0 ≤ norm3r a b c := norm3r_nonneg a b c
  have hsq := sq_norm3r a b c
  have hsle : norm3r a b c ≤ a + b + c :=
    sqrt_le_of_sq_le (by linarith)
      (by nlinarith [mul_nonneg ha hb, mul_nonneg ha hc, mul_nonneg hb hc])
  apply le_sqrt_of_sq_le (by linarith)
  rcases h1 with h1 | h1 <;> rcases h2 with h2 | h2 <;> rcases h3 with h3 | h3
  · rcases hpos with hp | hp | hp <;> [linarith; linarith; linarith]
  · subst h1; subst h2
    nlinarith [sq_nonneg du, sq_nonneg dv, sq_nonneg (dw - (c + m))]
  · subst h1; subst h3
    nlinarith [sq_nonneg du, sq_nonneg dw, sq_nonneg (dv - (b + m))]
  · subst h1
    nlinarith [sq_nonneg du, sq_nonneg (dv - (b + m)), sq_nonneg (dw - (c + m))]
  · subst h2; subst h3
    nlinarith [sq_nonneg dv, sq_nonneg dw, sq_nonneg (du - (a + m))]
  · subst h2
    nlinarith [sq_nonneg dv, sq_nonneg (du - (a + m)), sq_nonneg (dw - (c + m))]
  · subst h3
    nlinarith [sq_nonneg dw, sq_nonneg (du - (a + m)), sq_nonneg (dv - (b + m))]
  · nlinarith [sq_nonneg (du - (a + m)), sq_nonneg (dv - (b + m)), sq_nonneg (dw - (c + m))]

theorem combine2_sub_le (u1 v1 u2 v2 : ℝ) :
    combine2 u1 v1 - combine2 u2 v2 ≤ norm2 (u1 - u2) (v1 - v2) := by
  have hNa := abs_le_norm2_left (u1 - u2) (v1 - v2)
  have hNb := abs_le_norm2_right (u1 - u2) (v1 - v2)
  have hN0 := norm2_nonneg (u1 - u2) (v1 - v2)
  rcases le_or_lt (max u1 v1) 0 with h1 | h1 <;> rcases le_or_lt (max u2 v2) 0 with h2 | h2
  · rw [combine2_of_nonpos (le_trans (le_max_left _ _) h1) (le_trans (le_max_right _ _) h1),
      combine2_of_nonpos (le_trans (le_max_left _ _) h2) (le_trans (le_max_right _ _) h2)]
    have ha : u1 ≤ max u2 v2 + norm2 (u1 - u2) (v1 - v2) := by
      have := le_abs_self (u1 - u2)
      have := le_max_left u2 v2
      linarith
    have hb : v1 ≤ max u2 v2 + norm2 (u1 - u2) (v1 - v2) := by
      have := le_abs_self (v1 - v2)
      have := le_max_right u2 v2
      linarith
    have := max_le ha hb
    linarith
  · rw [combine2_of_nonpos (le_trans (le_max_left _ _) h1) (le_trans (le_max_right _ _) h1),
      combine2_of_pos h2]
    have := norm2_nonneg (max u2 0) (max v2 0)
    linarith
  · rw [combine2_of_pos h1,
      combine2_of_nonpos (le_trans (le_max_left _ _) h2) (le_trans (le_max_right _ _) h2)]
    have hu2 : u2 ≤ 0 := le_trans (le_max_left _ _) h2
    have hv2 : v2 ≤ 0 := le_trans (le_max_right _ _) h2
    have hkey : norm2 (max u1 0) (max v1 0) + (-(max u2 v2)) ≤ norm2 (u1 - u2) (v1 - v2) := by
      apply key_mixed2 (le_max_right u1 0) (le_max_right v1 0) (by linarith)
      · rcases le_or_lt u1 0 with hu1 | hu1
        · exact Or.inl (max_eq_right hu1)
        · refine Or.inr ?_
          rw [max_eq_left hu1.le]
          have : -(max u2 v2) ≤ -u2 := by
            have := le_max_left u2 v2
            linarith
          linarith
      · rcases le_or_lt v1 0 with hv1 | hv1
        · exact Or.inl (max_eq_right hv1)
        · refine Or.inr ?_
          rw [max_eq_left hv1.le]
          have : -(max u2 v2) ≤ -v2 := by
            have := le_max_right u2 v2
            linarith
          linarith
      · rcases lt_max_iff.mp h1 with hu1 | hv1
        · exact Or.inl (lt_of_lt_of_le hu1 (le_max_left u1 0))
        · exact Or.inr (lt_of_lt_of_le hv1 (le_max_left v1 0))
    linarith
  · rw [combine2_of_pos h1, combine2_of_pos h2]
    have hsub := norm2_sub_le (max u1 0) (max v1 0) (max u2 0) (max v2 0)
    have hmono : norm2 (max u1 0 - max u2 0) (max v1 0 - max v2 0) ≤
        norm2 (u1 - u2) (v1 - v2) := by
      apply norm2_mono
      · calc |max u1 0 - max u2 0| ≤ |u1 - u2| := abs_max_zero_sub u1 u2
          _ ≤ |u1 - u2| := le_refl _
      · exact le_trans (abs_max_zero_sub v1 v2) (le_refl _)
    linarith

theorem combine2_lipschitz (u1 v1 u2 v2 : ℝ) :
    |combine2 u1 v1 - combine2 u2 v2| ≤ norm2 (u1 - u2) (v1 - v2) := by
  rw [abs_sub_le_iff]
  refine ⟨combine2_sub_le u1 v1 u2 v2, ?_⟩
  rw [norm2_sub_comm]
  exact combine2_sub_le u2 v2 u1 v1

theorem combine3_of_nonpos {u v w : ℝ} (hu : u ≤ 0) (hv : v ≤ 0) (hw : w ≤ 0) :
    combine3 u v w = max u (max v w) := by
  rw [combine3, min_eq_right (max_le hu (max_le hv hw)), max_eq_left hu,
    max_eq_left hv, max_eq_left hw]
  simp [norm3r]

theorem combine3_of_pos {u v w : ℝ} (h : 0 < max u (max v w)) :
    combine3 u v w = norm3r (max 0 u) (max 0 v) (max 0 w) := by
  rw [combine3, min_eq_left h.le, zero_add]

theorem abs_le_norm3r_1 (a b c : ℝ) : |a| ≤ norm3r a b c := by
  rw [← Real.sqrt_sq_eq_abs]
  exact Real.sqrt_le_sqrt (by nlinarith [sq_nonneg b, sq_nonneg c])

theorem abs_le_norm3r_2 (a b c : ℝ) : |b| ≤ norm3r a b c := by
  rw [← Real.sqrt_sq_eq_abs]
  exact Real.sqrt_le_sqrt (by nlinarith [sq_nonneg a, sq_nonneg c])

theorem abs_le_norm3r_3 (a b c : ℝ) : |c| ≤ norm3r a b c := by
  rw [← Real.sqrt_sq_eq_abs]
  exact Real.sqrt_le_sqrt (by nlinarith [sq_nonneg a, sq_nonneg b])

theorem abs_zero_max_sub (a b : ℝ) : |max 0 a - max 0 b| ≤ |a - b| := by
  simpa [max_comm] using abs_max_zero_sub a b

theorem combine3_sub_le (u1 v1 w1 u2 v2 w2 : ℝ) :
    combine3 u1 v1 w1 - combine3 u2 v2 w2 ≤ norm3r (u1 - u2) (v1 - v2) (w1 - w2) := by
  have hNa := abs_le_norm3r_1 (u1 - u2) (v1 - v2) (w1 - w2)
  have hNb := abs_le_norm3r_2 (u1 - u2) (v1 - v2) (w1 - w2)
  have hNc := abs_le_norm3r_3 (u1 - u2) (v1 - v2) (w1 - w2)
  have hN0 := norm3r_nonneg (u1 - u2) (v1 - v2) (w1 - w2)
  rcases le_or_lt (max u1 (max v1 w1)) 0 with h1 | h1 <;>
    rcases le_or_lt (max u2 (max v2 w2)) 0 with h2 | h2
  · have hu1 : u1 ≤ 0 := le_trans (le_max_left _ _) h1
    have hv1 : v1 ≤ 0 := le_trans (le_trans (le_max_left _ _) (le_max_right u1 _)) h1
    have hw1 : w1 ≤ 0 := le_trans (le_trans (le_max_right _ _) (le_max_right u1 _)) h1
    have hu2 : u2 ≤ 0 := le_trans (le_max_left _ _) h2
    have hv2 : v2 ≤ 0 := le_trans (le_trans (le_max_left _ _) (le_max_right u2 _)) h2
    have hw2 : w2 ≤ 0 := le_trans (le_trans (le_max_right _ _) (le_max_right u2 _)) h2
    rw [combine3_of_nonpos hu1 hv1 hw1, combine3_of_nonpos hu2 hv2 hw2]
    have hm2 : u2 ≤ max u2 (max v2 w2) := le_max_left _ _
    have hm2v : v2 ≤ max u2 (max v2 w2) := le_trans (le_max_left _ _) (le_max_right u2 _)
    have hm2w : w2 ≤ max u2 (max v2 w2) := le_trans (le_max_right _ _) (le_max_right u2 _)
    have ha : u1 ≤ max u2 (max v2 w2) + norm3r (u1 - u2) (v1 - v2) (w1 - w2) := by
      have := le_abs_self (u1 - u2)
      linarith
    have hb : v1 ≤ max u2 (max v2 w2) + norm3r (u1 - u2) (v1 - v2) (w1 - w2) := by
      have := le_abs_self (v1 - v2)
      linarith
    have hc : w1 ≤ max u2 (max v2 w2) + norm3r (u1 - u2) (v1 - v2) (w1 - w2) := by
      have := le_abs_self (w1 - w2)
      linarith
    have := max_le ha (max_le hb hc)
    linarith
  · have hu1 : u1 ≤ 0 := le_trans (le_max_left _ _) h1
    have hv1 : v1 ≤ 0 := le_trans (le_trans (le_max_left _ _) (le_max_right u1 _)) h1
    have hw1 : w1 ≤ 0 := le_trans (le_trans (le_max_right _ _) (le_max_right u1 _)) h1
    rw [combine3_of_nonpos hu1 hv1 hw1, combine3_of_pos h2]
    have := norm3r_nonneg (max 0 u2) (max 0 v2) (max 0 w2)
    have := max_le hu1 (max_le hv1 hw1)
    linarith
  · have hu2 : u2 ≤ 0 := le_trans (le_max_left _ _) h2
    have hv2 : v2 ≤ 0 := le_trans (le_trans (le_max_left _ _) (le_max_right u2 _)) h2
    have hw2 : w2 ≤ 0 := le_trans (le_trans (le_max_right _ _) (le_max_right u2 _)) h2
    rw [combine3_of_pos h1, combine3_of_nonpos hu2 hv2 hw2]
    have hkey : norm3r (max 0 u1) (max 0 v1) (max 0 w1) + (-(max u2 (max v2 w2))) ≤
        norm3r (u1 - u2) (v1 - v2) (w1 - w2) := by
      apply key_mixed3 (le_max_left 0 u1) (le_max_left 0 v1) (le_max_left 0 w1)
        (by linarith [max_le hu2 (max_le hv2 hw2)])
      · rcases le_or_lt u1 0 with hx | hx
        · exact Or.inl (max_eq_left hx)
        · refine Or.inr ?_
          rw [max_eq_right hx.le]
          have : -(max u2 (max v2 w2)) ≤ -u2 := by
            have := le_max_left u2 (max v2 w2)
            linarith
          linarith
      · rcases le_or_lt v1 0 with hx | hx
        · exact Or.inl (max_eq_left hx)
        · refine Or.inr ?_
          rw [max_eq_right hx.le]
          have : -(max u2 (max v2 w2)) ≤ -v2 := by
            have := le_trans (le_max_left v2 w2) (le_max_right u2 _)
            linarith
          linarith
      · rcases le_or_lt w1 0 with hx | hx
        · exact Or.inl (max_eq_left hx)
        · refine Or.inr ?_
          rw [max_eq_right hx.le]
          have : -(max u2 (max v2 w2)) ≤ -w2 := by
            have := le_trans (le_max_right v2 w2) (le_max_right u2 _)
            linarith
          linarith
      · rcases lt_max_iff.mp h1 with hx | hx
        · exact Or.inl (lt_of_lt_of_le hx (le_max_right 0 u1))
        · rcases lt_max_iff.mp hx with hy | hy
          · exact Or.inr (Or.inl (lt_of_lt_of_le hy (le_max_right 0 v1)))
          · exact Or.inr (Or.inr (lt_of_lt_of_le hy (le_max_right 0 w1)))
    linarith
  · rw [combine3_of_pos h1, combine3_of_pos h2]
    have hsub := norm3r_sub_le (max 0 u1) (max 0 v1) (max 0 w1)
      (max 0 u2) (max 0 v2) (max 0 w2)
    have hmono : norm3r (max 0 u1 - max 0 u2) (max 0 v1 - max 0 v2)
        (max 0 w1 - max 0 w2) ≤ norm3r (u1 - u2) (v1 - v2) (w1 - w2) := by
      apply norm3r_mono
      · exact le_trans (abs_zero_max_sub u1 u2) (le_abs_self _ |>.trans (by rw [abs_abs]))
      · exact le_trans (abs_zero_max_sub v1 v2) (le_abs_self _ |>.trans (by rw [abs_abs]))
      · exact le_trans (abs_zero_max_sub w1 w2) (le_abs_self _ |>.trans (by rw [abs_abs]))
    linarith

theorem combine3_lipschitz (u1 v1 w1 u2 v2 w2 : ℝ) :
    |combine3 u1 v1 w1 - combine3 u2 v2 w2| ≤
      norm3r (u1 - u2) (v1 - v2) (w1 - w2) := by
  rw [abs_sub_le_iff]
  refine ⟨combine3_sub_le u1 v1 w1 u2 v2 w2, ?_⟩
  rw [norm3r_sub_comm]
  exact combine3_sub_le u2 v2 w2 u1 v1 w1

/-!
The three SDFs are 1-Lipschitz whenever their constructor preconditions
hold.
-/

theorem sdfCylinder_eq (p n : Vec3) (r h : ℝ) (x : Vec3) :
    sdfCylinder p n r h x =
      combine2 (|(x.sub p).dot n - h * 0.5| - h * 0.5)
        (((x.sub p).projectOnPlane n).length - r) := rfl

theorem sdfCylinder_lipschitz {n : Vec3} (p : Vec3) (r h : ℝ) (hn : n.length = 1)
    (x y : Vec3) :
    |sdfCylinder p n r h x - sdfCylinder p n r h y| ≤ x.distanceTo y := by
  have hn2 : n.normSq = 1 := normSq_of_length_one hn
  rw [sdfCylinder_eq, sdfCylinder_eq]
  have hdot : (x.sub p).dot n - (y.sub p).dot n = (x.sub y).dot n := by
    simp only [Vec3.sub, Vec3.dot]
    ring
  have hw : ((x.sub p).projectOnPlane n).sub ((y.sub p).projectOnPlane n) =
      (x.sub y).projectOnPlane n := by
    rw [projPlane_sub hn2]
    congr 1
    apply Vec3.ext_comp <;> (simp only [Vec3.sub]; ring)
  have hd1 : |(|(x.sub p).dot n - h * 0.5| - h * 0.5) -
      (|(y.sub p).dot n - h * 0.5| - h * 0.5)| ≤ |(x.sub y).dot n| := by
    have habs := abs_abs_sub_abs_le_abs_sub ((x.sub p).dot n - h * 0.5)
      ((y.sub p).dot n - h * 0.5)
    have heq : ((x.sub p).dot n - h * 0.5) - ((y.sub p).dot n - h * 0.5) =
        (x.sub y).dot n := by linarith [hdot]
    rw [heq] at habs
    have heq2 : (|(x.sub p).dot n - h * 0.5| - h * 0.5) -
        (|(y.sub p).dot n - h * 0.5| - h * 0.5) =
        |(x.sub p).dot n - h * 0.5| - |(y.sub p).dot n - h * 0.5| := by ring
    rw [heq2]
    exact habs
  have hd2 : |(((x.sub p).projectOnPlane n).length - r) -
      (((y.sub p).projectOnPlane n).length - r)| ≤
      ((x.sub y).projectOnPlane n).length := by
    have hlen := Vec3.abs_length_sub_le ((x.sub p).projectOnPlane n)
      ((y.sub p).projectOnPlane n)
    rw [hw] at hlen
    have heq2 : (((x.sub p).projectOnPlane n).length - r) -
        (((y.sub p).projectOnPlane n).length - r) =
        ((x.sub p).projectOnPlane n).length -
          ((y.sub p).projectOnPlane n).length := by ring
    rw [heq2]
    exact hlen
  calc |combine2 (|(x.sub p).dot n - h * 0.5| - h * 0.5)
        (((x.sub p).projectOnPlane n).length - r) -
      combine2 (|(y.sub p).dot n - h * 0.5| - h * 0.5)
        (((y.sub p).projectOnPlane n).length - r)|
      ≤ norm2 ((|(x.sub p).dot n - h * 0.5| - h * 0.5) -
          (|(y.sub p).dot n - h * 0.5| - h * 0.5))
        ((((x.sub p).projectOnPlane n).length - r) -
          (((y.sub p).projectOnPlane n).length - r)) := combine2_lipschitz _ _ _ _
    _ ≤ norm2 ((x.sub y).dot n) (((x.sub y).projectOnPlane n).length) := by
        apply norm2_mono
        · exact hd1
        · rw [abs_of_nonneg (Vec3.length_nonneg _)]
          exact hd2
    _ = (x.sub y).length := norm2_decomp hn2 (x.sub y)
    _ = x.distanceTo y := rfl

theorem segT_nonneg (dq u : Vec3) : 0 ≤ segT dq u := le_max_left 0 _

theorem segT_le_one (dq u : Vec3) : segT dq u ≤ 1 :=
  max_le zero_le_one (min_le_left 1 _)

theorem normSq_sub_smul (u : Vec3) (s : ℝ) (dq : Vec3) :
    (u.sub (Vec3.smul s dq)).normSq =
      u.normSq - 2 * s * u.dot dq + s ^ 2 * dq.normSq := by
  simp only [Vec3.sub, Vec3.smul, Vec3.normSq, Vec3.dot]
  ring

theorem Vec3.eq_zero_of_normSq_eq_zero {a : Vec3} (h : a.normSq = 0) :
    a = Vec3.zero := by
  simp only [Vec3.normSq, Vec3.dot] at h
  have hx : a.x * a.x = 0 := le_antisymm (by nlinarith [mul_self_nonneg a.y, mul_self_nonneg a.z]) (mul_self_nonneg a.x)
  have hy : a.y * a.y = 0 := le_antisymm (by nlinarith [mul_self_nonneg a.x, mul_self_nonneg a.z]) (mul_self_nonneg a.y)
  have hz : a.z * a.z = 0 := le_antisymm (by nlinarith [mul_self_nonneg a.x, mul_self_nonneg a.y]) (mul_self_nonneg a.z)
  apply Vec3.ext_comp
  · simpa [Vec3.zero] using mul_self_eq_zero.mp hx
  · simpa [Vec3.zero] using mul_self_eq_zero.mp hy
  · simpa [Vec3.zero] using mul_self_eq_zero.mp hz

theorem clamp01_closest {c s : ℝ} (h0 : 0 ≤ s) (h1 : s ≤ 1) :
    |clamp01 c - c| ≤ |s - c| := by
  rw [clamp01]
  rcases le_or_lt c 0 with hc | hc
  · rw [min_eq_right (le_trans hc zero_le_one), max_eq_left hc,
      abs_of_nonneg (by linarith : (0:ℝ) ≤ 0 - c), abs_of_nonneg (by linarith)]
    linarith
  · rcases le_or_lt 1 c with hc1 | hc1
    · rw [min_eq_left hc1, max_eq_right zero_le_one,
        abs_of_nonpos (by linarith : (1:ℝ) - c ≤ 0), abs_of_nonpos (by linarith)]
      linarith
    · rw [min_eq_right hc1.le, max_eq_right hc.le]
      simp [abs_nonneg]

theorem segDist_le (dq u : Vec3) {s : ℝ} (hs0 : 0 ≤ s) (hs1 : s ≤ 1) :
    segDist dq u ≤ u.distanceTo (Vec3.smul s dq) := by
  simp only [segDist, Vec3.distanceTo, Vec3.length]
  apply Real.sqrt_le_sqrt
  rw [normSq_sub_smul, normSq_sub_smul]
  by_cases hL : dq.normSq = 0
  · have hdq : dq = Vec3.zero := Vec3.eq_zero_of_normSq_eq_zero hL
    have hdot0 : u.dot dq = 0 := by
      rw [hdq]
      simp [Vec3.dot, Vec3.zero]
    rw [hL, hdot0]
    simp
  · have hLpos : 0 < dq.normSq := lt_of_le_of_ne (Vec3.normSq_nonneg dq) (Ne.symm hL)
    have ht : segT dq u = clamp01 (u.dot dq / dq.normSq) := rfl
    have hc : u.dot dq = (u.dot dq / dq.normSq) * dq.normSq := by field_simp
    have habs := clamp01_closest (c := u.dot dq / dq.normSq) hs0 hs1
    have hsq : (clamp01 (u.dot dq / dq.normSq) - u.dot dq / dq.normSq) ^ 2 ≤
        (s - u.dot dq / dq.normSq) ^ 2 := by
      have h2 := pow_le_pow_left₀ (abs_nonneg _) habs 2
      simpa [sq_abs] using h2
    have hkey : ∀ t1 : ℝ, (t1 - u.dot dq / dq.normSq) ^ 2 ≤
        (s - u.dot dq / dq.normSq) ^ 2 →
        u.normSq - 2 * t1 * u.dot dq + t1 ^ 2 * dq.normSq ≤
          u.normSq - 2 * s * u.dot dq + s ^ 2 * dq.normSq := by
      intro t1 hsq1
      have hprod := mul_nonneg hLpos.le (sub_nonneg.mpr hsq1)
      have hzero : (s - t1) * (u.dot dq / dq.normSq * dq.normSq - u.dot dq) = 0 := by
        rw [← hc]
        ring
      nlinarith [hprod, hzero]
    rw [ht]
    exact hkey (clamp01 (u.dot dq / dq.normSq)) hsq

theorem segDist_lipschitz (dq u v : Vec3) :
    |segDist dq u - segDist dq v| ≤ (u.sub v).length := by
  have key : ∀ a b : Vec3, segDist dq a - segDist dq b ≤ (a.sub b).length := by
    intro a b
    have h1 : segDist dq a ≤ a.distanceTo (Vec3.smul (segT dq b) dq) :=
      segDist_le dq a (segT_nonneg dq b) (segT_le_one dq b)
    have h2 : a.distanceTo (Vec3.smul (segT dq b) dq) ≤
        (a.sub b).length + segDist dq b := by
      have h3 := dist3_triangle a b (Vec3.smul (segT dq b) dq)
      simpa [Vec3.distanceTo, segDist] using h3
    linarith
  rw [abs_sub_le_iff]
  refine ⟨key u v, ?_⟩
  rw [Vec3.sub_length_comm]
  exact key v u

theorem sdfElh_eq (p q n : Vec3) (r h : ℝ) (x : Vec3) :
    sdfElh p q n r h x =
      combine2 (|n.dot (x.sub p) - h * 0.5| - h * 0.5)
        (segDist (q.sub p) ((x.sub p).projectOnPlane n) - r) := rfl

theorem sdfElh_lipschitz {n : Vec3} (p q : Vec3) (r h : ℝ) (hn : n.length = 1)
    (x y : Vec3) :
    |sdfElh p q n r h x - sdfElh p q n r h y| ≤ x.distanceTo y := by
  have hn2 : n.normSq = 1 := normSq_of_length_one hn
  rw [sdfElh_eq, sdfElh_eq]
  have hdot : n.dot (x.sub p) - n.dot (y.sub p) = (x.sub y).dot n := by
    simp only [Vec3.sub, Vec3.dot]
    ring
  have hw : ((x.sub p).projectOnPlane n).sub ((y.sub p).projectOnPlane n) =
      (x.sub y).projectOnPlane n := by
    rw [projPlane_sub hn2]
    congr 1
    apply Vec3.ext_comp <;> (simp only [Vec3.sub]; ring)
  have hd1 : |(|n.dot (x.sub p) - h * 0.5| - h * 0.5) -
      (|n.dot (y.sub p) - h * 0.5| - h * 0.5)| ≤ |(x.sub y).dot n| := by
    have habs := abs_abs_sub_abs_le_abs_sub (n.dot (x.sub p) - h * 0.5)
      (n.dot (y.sub p) - h * 0.5)
    have heq : (n.dot (x.sub p) - h * 0.5) - (n.dot (y.sub p) - h * 0.5) =
        (x.sub y).dot n := by linarith [hdot]
    rw [heq] at habs
    have heq2 : (|n.dot (x.sub p) - h * 0.5| - h * 0.5) -
        (|n.dot (y.sub p) - h * 0.5| - h * 0.5) =
        |n.dot (x.sub p) - h * 0.5| - |n.dot (y.sub p) - h * 0.5| := by ring
    rw [heq2]
    exact habs
  have hd2 : |(segDist (q.sub p) ((x.sub p).projectOnPlane n) - r) -
      (segDist (q.sub p) ((y.sub p).projectOnPlane n) - r)| ≤
      ((x.sub y).projectOnPlane n).length := by
    have hlip := segDist_lipschitz (q.sub p) ((x.sub p).projectOnPlane n)
      ((y.sub p).projectOnPlane n)
    rw [hw] at hlip
    have heq2 : (segDist (q.sub p) ((x.sub p).projectOnPlane n) - r) -
        (segDist (q.sub p) ((y.sub p).projectOnPlane n) - r) =
        segDist (q.sub p) ((x.sub p).projectOnPlane n) -
          segDist (q.sub p) ((y.sub p).projectOnPlane n) := by ring
    rw [heq2]
    exact hlip
  calc |combine2 (|n.dot (x.sub p) - h * 0.5| - h * 0.5)
        (segDist (q.sub p) ((x.sub p).projectOnPlane n) - r) -
      combine2 (|n.dot (y.sub p) - h * 0.5| - h * 0.5)
        (segDist (q.sub p) ((y.sub p).projectOnPlane n) - r)|
      ≤ norm2 ((|n.dot (x.sub p) - h * 0.5| - h * 0.5) -
          (|n.dot (y.sub p) - h * 0.5| - h * 0.5))
        ((segDist (q.sub p) ((x.sub p).projectOnPlane n) - r) -
          (segDist (q.sub p) ((y.sub p).projectOnPlane n) - r)) :=
        combine2_lipschitz _ _ _ _
    _ ≤ norm2 ((x.sub y).dot n) (((x.sub y).projectOnPlane n).length) := by
        apply norm2_mono
        · exact hd1
        · rw [abs_of_nonneg (Vec3.length_nonneg _)]
          exact hd2
    _ = (x.sub y).length := norm2_decomp hn2 (x.sub y)
    _ = x.distanceTo y := rfl

theorem sdfBox_eq (c h0v h1v h2v : Vec3) (x : Vec3) :
    sdfBox c h0v h1v h2v x =
      combine3 (|(x.sub c).dot h0v.normalize| - h0v.length)
        (|(x.sub c).dot h1v.normalize| - h1v.length)
        (|(x.sub c).dot h2v.normalize| - h2v.length) := rfl

theorem sdfBox_lipschitz (c h0v h1v h2v : Vec3) (h01 : h0v.dot h1v = 0)
    (h02 : h0v.dot h2v = 0) (h12 : h1v.dot h2v = 0) (x y : Vec3) :
    |sdfBox c h0v h1v h2v x - sdfBox c h0v h1v h2v y| ≤ x.distanceTo y := by
  rw [sdfBox_eq, sdfBox_eq]
  have hcoord : ∀ u : Vec3, (x.sub c).dot u - (y.sub c).dot u = (x.sub y).dot u := by
    intro u
    simp only [Vec3.sub, Vec3.dot]
    ring
  have hcomp : ∀ u : Vec3, ∀ L : ℝ,
      |(|(x.sub c).dot u| - L) - (|(y.sub c).dot u| - L)| ≤ |(x.sub y).dot u| := by
    intro u L
    have habs := abs_abs_sub_abs_le_abs_sub ((x.sub c).dot u) ((y.sub c).dot u)
    rw [hcoord u] at habs
    have heq2 : (|(x.sub c).dot u| - L) - (|(y.sub c).dot u| - L) =
        |(x.sub c).dot u| - |(y.sub c).dot u| := by ring
    rw [heq2]
    exact habs
  calc |combine3 (|(x.sub c).dot h0v.normalize| - h0v.length)
        (|(x.sub c).dot h1v.normalize| - h1v.length)
        (|(x.sub c).dot h2v.normalize| - h2v.length) -
      combine3 (|(y.sub c).dot h0v.normalize| - h0v.length)
        (|(y.sub c).dot h1v.normalize| - h1v.length)
        (|(y.sub c).dot h2v.normalize| - h2v.length)|
      ≤ norm3r ((|(x.sub c).dot h0v.normalize| - h0v.length) -
          (|(y.sub c).dot h0v.normalize| - h0v.length))
        ((|(x.sub c).dot h1v.normalize| - h1v.length) -
          (|(y.sub c).dot h1v.normalize| - h1v.length))
        ((|(x.sub c).dot h2v.normalize| - h2v.length) -
          (|(y.sub c).dot h2v.normalize| - h2v.length)) := combine3_lipschitz _ _ _ _ _ _
    _ ≤ norm3r ((x.sub y).dot h0v.normalize) ((x.sub y).dot h1v.normalize)
        ((x.sub y).dot h2v.normalize) := by
        apply norm3r_mono
        · exact hcomp h0v.normalize h0v.length
        · exact hcomp h1v.normalize h1v.length
        · exact hcomp h2v.normalize h2v.length
    _ ≤ (x.sub y).length := by
        apply sqrt_le_of_sq_le (Vec3.length_nonneg _)
        rw [Vec3.sq_length]
        exact bessel3 h0v.normalize h1v.normalize h2v.normalize (x.sub y)
          (normalize_dot_zero h01) (normalize_dot_zero h02) (normalize_dot_zero h12)
          (normalize_normSq_le_one h0v) (normalize_normSq_le_one h1v)
          (normalize_normSq_le_one h2v)
    _ = x.distanceTo y := rfl

/-- Shared helper: a well-formed shape passes all createSdf validation and
the resulting SDF is 1-Lipschitz. -/
theorem createSdf_wf_lipschitz {s : Shape} (hs : ShapeWF s) :
    ∃ f, createSdf s = Except.ok f ∧ ∀ x y, |f x - f y| ≤ x.distanceTo y := by
  cases s with
  | cylinder p n r h =>
    obtain ⟨hn, _, _⟩ := hs
    refine ⟨sdfCylinder p n r h, ?_, sdfCylinder_lipschitz p r h hn⟩
    rw [createSdf, if_neg (by simp [hn])]
  | elh p q n r h =>
    obtain ⟨hn, hperp, _, _⟩ := hs
    refine ⟨sdfElh p q n r h, ?_, sdfElh_lipschitz p q r h hn⟩
    rw [createSdf, if_neg (by simp [hn]), if_neg (by simp [hperp]),
      if_neg (not_lt.mpr (show (0:ℝ) ≤ q.distanceTo p from Vec3.length_nonneg _))]
  | box c h0v h1v h2v =>
    obtain ⟨h01, h02, h12⟩ := hs
    refine ⟨sdfBox c h0v h1v h2v, ?_, sdfBox_lipschitz c h0v h1v h2v h01 h02 h12⟩
    rw [createSdf, if_neg (by simp [h01, h02, h12])]

/-!
Membership characterization of the block-culled traversal.
-/

theorem mem_blockList {α : Type} {g : VoxelGridCpu α} {sdf : Vec3 → ℝ} {offset : ℝ}
    {bx byi bz : Nat} :
    (bx, byi, bz) ∈ blockList g sdf offset ↔
      bx < g.numX / 8 + 1 ∧ byi < g.numY / 8 + 1 ∧ bz < g.numZ / 8 + 1 ∧
      sdf (blockCenter g bx byi bz) ≤ blockOffsetOf g + offset := by
  simp only [blockList, List.mem_flatMap, List.mem_filterMap, List.mem_range,
    Option.ite_none_right_eq_some, Option.some.injEq, Prod.mk.injEq]
  constructor
  · rintro ⟨bz2, hbz, byi2, hbyi, bx2, hbx, hcond, rfl, rfl, rfl⟩
    exact ⟨hbx, hbyi, hbz, hcond⟩
  · rintro ⟨hbx, hbyi, hbz, hcond⟩
    exact ⟨bz, hbz, byi, hbyi, bx, hbx, hcond, rfl, rfl, rfl⟩

theorem mem_blockCells {α : Type} {g : VoxelGridCpu α} {sdf : Vec3 → ℝ} {offset : ℝ}
    {bx byi bz ix iy iz : Nat} :
    (ix, iy, iz) ∈ blockCells g sdf offset (bx, byi, bz) ↔
      (∃ dx, dx < 8 ∧ ix = bx * 8 + dx) ∧ (∃ dy, dy < 8 ∧ iy = byi * 8 + dy) ∧
      (∃ dz, dz < 8 ∧ iz = bz * 8 + dz) ∧
      ix < g.numX ∧ iy < g.numY ∧ iz < g.numZ ∧
      sdf (g.centerOf ix iy iz) ≤ offset := by
  simp only [blockCells, List.mem_flatMap, List.mem_range]
  constructor
  · rintro ⟨dz, hdz, hmem⟩
    rw [apply_ite (fun l => (ix, iy, iz) ∈ l)] at hmem
    by_cases hz : g.numZ ≤ bz * 8 + dz
    · rw [if_pos hz] at hmem
      simp at hmem
    · rw [if_neg hz] at hmem
      simp only [List.mem_flatMap, List.mem_range] at hmem
      obtain ⟨dy, hdy, hmem⟩ := hmem
      rw [apply_ite (fun l => (ix, iy, iz) ∈ l)] at hmem
      by_cases hy : g.numY ≤ byi * 8 + dy
      · rw [if_pos hy] at hmem
        simp at hmem
      · rw [if_neg hy] at hmem
        simp only [List.mem_flatMap, List.mem_range] at hmem
        obtain ⟨dx, hdx, hmem⟩ := hmem
        rw [apply_ite (fun l => (ix, iy, iz) ∈ l)] at hmem
        by_cases hxb : g.numX ≤ bx * 8 + dx
        · rw [if_pos hxb] at hmem
          simp at hmem
        · rw [if_neg hxb] at hmem
          by_cases hsel : sdf (g.centerOf (bx * 8 + dx) (byi * 8 + dy) (bz * 8 + dz)) ≤ offset
          · rw [if_pos hsel] at hmem
            simp only [List.mem_singleton, Prod.mk.injEq] at hmem
            obtain ⟨rfl, rfl, rfl⟩ := hmem
            exact ⟨⟨dx, hdx, by ring⟩, ⟨dy, hdy, by ring⟩, ⟨dz, hdz, by ring⟩,
              by omega, by omega, by omega, hsel⟩
          · rw [if_neg hsel] at hmem
            simp at hmem

  · rintro ⟨⟨dx, hdx, rfl⟩, ⟨dy, hdy, rfl⟩, ⟨dz, hdz, rfl⟩, hxlt, hylt, hzlt, hsel⟩
    refine ⟨dz, hdz, ?_⟩
    rw [if_neg (by omega)]
    simp only [List.mem_flatMap, List.mem_range]
    refine ⟨dy, hdy, ?_⟩
    rw [if_neg (by omega)]
    simp only [List.mem_flatMap, List.mem_range]
    refine ⟨dx, hdx, ?_⟩
    rw [if_neg (by omega), if_pos hsel]
    simp

theorem mem_visitList {α : Type} {g : VoxelGridCpu α} {sdf : Vec3 → ℝ} {offset : ℝ}
    {ix iy iz : Nat} :
    (ix, iy, iz) ∈ visitList g sdf offset ↔
      ix < g.numX ∧ iy < g.numY ∧ iz < g.numZ ∧
      sdf (g.centerOf ix iy iz) ≤ offset ∧
      sdf (blockCenter g (ix / 8) (iy / 8) (iz / 8)) ≤ blockOffsetOf g + offset := by
  simp only [visitList, List.mem_flatMap]
  constructor
  · rintro ⟨⟨bx, byi, bz⟩, hb, hc⟩
    rw [mem_blockList] at hb
    rw [mem_blockCells] at hc
    obtain ⟨⟨dx, hdx, rfl⟩, ⟨dy, hdy, rfl⟩, ⟨dz, hdz, rfl⟩, hxlt, hylt, hzlt, hsel⟩ := hc
    have hbx : (bx * 8 + dx) / 8 = bx := by omega
    have hby : (byi * 8 + dy) / 8 = byi := by omega
    have hbz : (bz * 8 + dz) / 8 = bz := by omega
    rw [hbx, hby, hbz]
    exact ⟨hxlt, hylt, hzlt, hsel, hb.2.2.2⟩
  · rintro ⟨hxlt, hylt, hzlt, hsel, hblock⟩
    refine ⟨(ix / 8, iy / 8, iz / 8), ?_, ?_⟩
    · rw [mem_blockList]
      exact ⟨by omega, by omega, by omega, hblock⟩
    · rw [mem_blockCells]
      exact ⟨⟨ix % 8, by omega, by omega⟩, ⟨iy % 8, by omega, by omega⟩,
        ⟨iz % 8, by omega, by omega⟩, hxlt, hylt, hzlt, hsel⟩

/-!
The grid produced by fillShape, pointwise.
-/

theorem set_meta {α : Type} (g : VoxelGridCpu α) (ix iy iz : Nat) (v : α) :
    (g.set ix iy iz v).res = g.res ∧ (g.set ix iy iz v).numX = g.numX ∧
    (g.set ix iy iz v).numY = g.numY ∧ (g.set ix iy iz v).numZ = g.numZ ∧
    (g.set ix iy iz v).ofs = g.ofs := by
  simp [VoxelGridCpu.set]

theorem VoxelGridCpu.ext_grid {α : Type} {a b : VoxelGridCpu α} (h1 : a.res = b.res)
    (h2 : a.numX = b.numX) (h3 : a.numY = b.numY) (h4 : a.numZ = b.numZ)
    (h5 : a.ofs = b.ofs) (h6 : a.data = b.data) : a = b := by
  cases a
  cases b
  simp_all

theorem fold_set_apply {α : Type} (val : α) :
    ∀ (l : List (Nat × Nat × Nat)) (g0 : VoxelGridCpu α),
      (l.foldl (fun acc c => if acc.2 = true then acc
          else (VoxelGridCpu.set acc.1 c.1 c.2.1 c.2.2 val, false)) (g0, false)).1 =
      { g0 with data := fun j =>
          if ∃ c ∈ l, g0.linIdx c.1 c.2.1 c.2.2 = j then val else g0.data j } := by
  intro l
  induction l with
  | nil =>
    intro g0
    simp only [List.foldl_nil, List.not_mem_nil]
    apply VoxelGridCpu.ext_grid <;> simp
  | cons c l ih =>
    intro g0
    rw [List.foldl_cons]
    simp only [Bool.false_eq_true, if_false]
    rw [ih (g0.set c.1 c.2.1 c.2.2 val)]
    have hlin : ∀ a b d : Nat,
        (g0.set c.1 c.2.1 c.2.2 val).linIdx a b d = g0.linIdx a b d := by
      intro a b d
      simp [VoxelGridCpu.set, VoxelGridCpu.linIdx]
    apply VoxelGridCpu.ext_grid
    · simp [VoxelGridCpu.set]
    · simp [VoxelGridCpu.set]
    · simp [VoxelGridCpu.set]
    · simp [VoxelGridCpu.set]
    · simp [VoxelGridCpu.set]
    · funext j
      simp only [hlin, List.mem_cons]
      by_cases hj : ∃ cc ∈ l, g0.linIdx cc.1 cc.2.1 cc.2.2 = j
      · have hj2 : ∃ cc, (cc = c ∨ cc ∈ l) ∧ g0.linIdx cc.1 cc.2.1 cc.2.2 = j := by
          obtain ⟨cc, hcc, hccj⟩ := hj
          exact ⟨cc, Or.inr hcc, hccj⟩
        rw [if_pos hj, if_pos hj2]
      · rw [if_neg hj]
        simp only [VoxelGridCpu.set]
        by_cases hcj : j = g0.linIdx c.1 c.2.1 c.2.2
        · have hj2 : ∃ cc, (cc = c ∨ cc ∈ l) ∧ g0.linIdx cc.1 cc.2.1 cc.2.2 = j :=
            ⟨c, Or.inl rfl, hcj.symm⟩
          rw [if_pos hcj, if_pos hj2]
        · have hj2 : ¬∃ cc, (cc = c ∨ cc ∈ l) ∧ g0.linIdx cc.1 cc.2.1 cc.2.2 = j := by
            rintro ⟨cc, hcc | hcc, hccj⟩
            · subst hcc
              exact hcj hccj.symm
            · exact hj ⟨cc, hcc, hccj⟩
          rw [if_neg hcj, if_neg hj2]

theorem fillRun_eq {α : Type} (g : VoxelGridCpu α) (sdf : Vec3 → ℝ) (offset : ℝ)
    (val : α) :
    fillRun g sdf offset val =
      { g with data := fun j =>
          if ∃ c ∈ visitList g sdf offset, g.linIdx c.1 c.2.1 c.2.2 = j then val
          else g.data j } := by
  rw [fillRun, traverseAllPointsInside, fold_set_apply]

theorem linIdx_inj {α : Type} (g : VoxelGridCpu α) {ix iy iz jx jy jz : Nat}
    (hix : ix < g.numX) (hiy : iy < g.numY) (hjx : jx < g.numX) (hjy : jy < g.numY)
    (h : g.linIdx ix iy iz = g.linIdx jx jy jz) : ix = jx ∧ iy = jy ∧ iz = jz := by
  simp only [VoxelGridCpu.linIdx] at h
  have h2 : ix + (iy + iz * g.numY) * g.numX = jx + (jy + jz * g.numY) * g.numX := by
    ring_nf
    ring_nf at h
    linarith [h]
  have hx : ix = jx := by
    have e1 : (ix + (iy + iz * g.numY) * g.numX) % g.numX = ix := by
      rw [Nat.add_mul_mod_self_right, Nat.mod_eq_of_lt hix]
    have e2 : (jx + (jy + jz * g.numY) * g.numX) % g.numX = jx := by
      rw [Nat.add_mul_mod_self_right, Nat.mod_eq_of_lt hjx]
    rw [← e1, ← e2, h2]
  subst hx
  have h3 : iy + iz * g.numY = jy + jz * g.numY := by
    have hpos : 0 < g.numX := by omega
    exact Nat.eq_of_mul_eq_mul_right hpos (by omega)
  have hy : iy = jy := by
    have e1 : (iy + iz * g.numY) % g.numY = iy := by
      rw [Nat.add_mul_mod_self_right, Nat.mod_eq_of_lt hiy]
    have e2 : (jy + jz * g.numY) % g.numY = jy := by
      rw [Nat.add_mul_mod_self_right, Nat.mod_eq_of_lt hjy]
    rw [← e1, ← e2, h3]
  subst hy
  have hpos : 0 < g.numY := by omega
  refine ⟨rfl, rfl, ?_⟩
  have := Nat.eq_of_mul_eq_mul_right hpos (show iz * g.numY = jz * g.numY by omega)
  omega

theorem visit_complete {α : Type} (g : VoxelGridCpu α) (sdf : Vec3 → ℝ) (offset : ℝ)
    (hlip : ∀ x y, |sdf x - sdf y| ≤ x.distanceTo y) (hres : 0 ≤ g.res)
    {ix iy iz : Nat} (hx : ix < g.numX) (hy : iy < g.numY) (hz : iz < g.numZ)
    (hsel : sdf (g.centerOf ix iy iz) ≤ offset) :
    (ix, iy, iz) ∈ visitList g sdf offset := by
  rw [mem_visitList]
  refine ⟨hx, hy, hz, hsel, ?_⟩
  have key : ∀ k i : Nat, k = i / 8 → ∀ r : ℝ, 0 ≤ r →
      (8 * r * ((k : ℝ) + 0.5) - r * ((i : ℝ) + 0.5)) ^ 2 ≤ (3.5 * r) ^ 2 := by
    intro k i hk r hr
    have h8 : 8 * k ≤ i := by omega
    have h8b : i < 8 * k + 8 := by omega
    have hc1 : (8 * (k : ℝ)) ≤ (i : ℝ) := by exact_mod_cast h8
    have hc2 : (i : ℝ) ≤ 8 * (k : ℝ) + 7 := by
      exact_mod_cast (show i ≤ 8 * k + 7 by omega)
    have hee : (3.5 - (8 * (k : ℝ) + 3.5 - i)) * ((8 * (k : ℝ) + 3.5 - i) + 3.5) ≥ 0 :=
      mul_nonneg (by linarith) (by linarith)
    nlinarith [mul_nonneg (sq_nonneg r) hee]
  have hnormsq : ((blockCenter g (ix / 8) (iy / 8) (iz / 8)).sub
      (g.centerOf ix iy iz)).normSq ≤ 3 * (3.5 * g.res) ^ 2 := by
    have k1 := key (ix / 8) ix rfl g.res hres
    have k2 := key (iy / 8) iy rfl g.res hres
    have k3 := key (iz / 8) iz rfl g.res hres
    simp only [blockCenter, VoxelGridCpu.centerOf, Vec3.smul, Vec3.add, Vec3.addScalar,
      Vec3.sub, Vec3.normSq, Vec3.dot]
    nlinarith [k1, k2, k3]
  have hdist : (blockCenter g (ix / 8) (iy / 8) (iz / 8)).distanceTo
      (g.centerOf ix iy iz) ≤ blockOffsetOf g := by
    rw [Vec3.distanceTo, blockOffsetOf]
    apply sqrt_le_of_sq_le (by positivity)
    have h3 : Real.sqrt 3 ^ 2 = 3 := Real.sq_sqrt (by norm_num)
    nlinarith [hnormsq, h3, sq_nonneg g.res]
  have hl := hlip (blockCenter g (ix / 8) (iy / 8) (iz / 8)) (g.centerOf ix iy iz)
  have hl2 := le_abs_self (sdf (blockCenter g (ix / 8) (iy / 8) (iz / 8)) -
    sdf (g.centerOf ix iy iz))
  linarith

theorem fillShape_mode_eq {α : Type} (g : VoxelGridCpu α) (s : Shape) (v : α)
    (sdf : Vec3 → ℝ) (hsdf : createSdf s = Except.ok sdf) :
    g.fillShape s v "outside" = Except.ok (fillRun g sdf (g.res * 0.5 * Real.sqrt 3) v) ∧
    g.fillShape s v "inside" = Except.ok (fillRun g sdf (-(g.res * 0.5 * Real.sqrt 3)) v) ∧
    g.fillShape s v "nearest" = Except.ok (fillRun g sdf 0 v) ∧
    ∀ mode, mode ≠ "outside" → mode ≠ "inside" → mode ≠ "nearest" →
      g.fillShape s v mode = Except.error "Unknown round mode" := by
  refine ⟨?_, ?_, ?_, ?_⟩
  · simp [VoxelGridCpu.fillShape, hsdf]
  · simp [VoxelGridCpu.fillShape, hsdf]
  · simp [VoxelGridCpu.fillShape, hsdf]
  · intro mode h1 h2 h3
    simp only [VoxelGridCpu.fillShape, hsdf]
    rw [if_neg h1, if_neg h2, if_neg h3]

theorem fillRun_get {α : Type} (g : VoxelGridCpu α) (sdf : Vec3 → ℝ) (offset : ℝ)
    (val : α) (hlip : ∀ x y, |sdf x - sdf y| ≤ x.distanceTo y) (hres : 0 ≤ g.res)
    {ix iy iz : Nat} (hx : ix < g.numX) (hy : iy < g.numY) (hz : iz < g.numZ) :
    (fillRun g sdf offset val).get ix iy iz =
      if sdf (g.centerOf ix iy iz) ≤ offset then val else g.get ix iy iz := by
  rw [fillRun_eq]
  show (if ∃ c ∈ visitList g sdf offset,
      g.linIdx c.1 c.2.1 c.2.2 = g.linIdx ix iy iz then val else g.data (g.linIdx ix iy iz)) = _
  by_cases hsel : sdf (g.centerOf ix iy iz) ≤ offset
  · rw [if_pos hsel, if_pos ⟨(ix, iy, iz),
      visit_complete g sdf offset hlip hres hx hy hz hsel, rfl⟩]
  · rw [if_neg hsel, if_neg ?_]
    · rfl
    · rintro ⟨⟨cx, cy, cz⟩, hc, hcj⟩
      rw [mem_visitList] at hc
      obtain ⟨rfl, rfl, rfl⟩ := linIdx_inj g hc.1 hc.2.1 hx hy hcj
      exact hsel hc.2.2.2.1

/-- C1: for every host grid and every shape satisfying the constructor
preconditions, fillShape with round mode outside, inside or nearest sets
to val exactly the in-range cells whose SDF at the cell center is at most
the mode offset (plus res*sqrt(3)/2, minus it, or zero respectively);
block culling never skips a selected cell, every other cell keeps its
previous value, and any other round mode is an error. -/
theorem C1_fillShape_selects_exactly {α : Type} (g : VoxelGridCpu α) (s : Shape)
    (v : α) (hs : ShapeWF s) (hres : 0 < g.res) :
    ∃ sdf, createSdf s = Except.ok sdf ∧
      (∀ mode offset,
        ((mode = "outside" ∧ offset = g.res * 0.5 * Real.sqrt 3) ∨
         (mode = "inside" ∧ offset = -(g.res * 0.5 * Real.sqrt 3)) ∨
         (mode = "nearest" ∧ offset = 0)) →
        ∃ g2, g.fillShape s v mode = Except.ok g2 ∧
          ∀ ix iy iz, ix < g.numX → iy < g.numY → iz < g.numZ →
            g2.get ix iy iz =
              if sdf (g.centerOf ix iy iz) ≤ offset then v else g.get ix iy iz) ∧
      (∀ mode, mode ≠ "outside" → mode ≠ "inside" → mode ≠ "nearest" →
        g.fillShape s v mode = Except.error "Unknown round mode") := by
  obtain ⟨sdf, hsdf, hlip⟩ := createSdf_wf_lipschitz hs
  obtain ⟨ho, hi, hn, herr⟩ := fillShape_mode_eq g s v sdf hsdf
  refine ⟨sdf, hsdf, ?_, herr⟩
  rintro mode offset (⟨rfl, rfl⟩ | ⟨rfl, rfl⟩ | ⟨rfl, rfl⟩)
  · exact ⟨_, ho, fun ix iy iz hx hy hz =>
      fillRun_get g sdf _ v hlip hres.le hx hy hz⟩
  · exact ⟨_, hi, fun ix iy iz hx hy hz =>
      fillRun_get g sdf _ v hlip hres.le hx hy hz⟩
  · exact ⟨_, hn, fun ix iy iz hx hy hz =>
      fillRun_get g sdf _ v hlip hres.le hx hy hz⟩

/-- Witness for C1 at a concrete grid and box shape: the preconditions are
satisfiable, and an unknown round mode on that grid throws. -/
theorem C1_witness :
    ShapeWF wBox ∧ (0:ℝ) < wGrid1.res ∧
    VoxelGridCpu.fillShape wGrid1 wBox 7 "diagonal" =
      Except.error "Unknown round mode" := by
  have hwf : ShapeWF wBox := by
    simp only [wBox, ShapeWF]
    norm_num [Vec3.dot]
  have hres : (0:ℝ) < wGrid1.res := by norm_num [wGrid1]
  obtain ⟨sdf, hsdf, hmodes, herr⟩ := C1_fillShape_selects_exactly wGrid1 wBox 7 hwf hres
  exact ⟨hwf, hres, herr "diagonal" (by decide) (by decide) (by decide)⟩

/-- C7 counterexample: the claim as stated is false at the degenerate ELH
with p = q.  That shape satisfies the constructor preconditions (unit
direction, perpendicularity and non-negativity) and the ELH validation
accepts it, yet the JS division 0/0 makes the returned SDF NaN at every
point, so the 1-Lipschitz inequality fails under IEEE comparison semantics
even between a point and itself. -/
theorem C7_counterexample :
    ShapeWF wElhDeg ∧ ¬ ShapeNondeg wElhDeg ∧
    createSdfElhJs Vec3.zero Vec3.zero ⟨1, 0, 0⟩ 1 1 =
      Except.ok (sdfElhJs Vec3.zero Vec3.zero ⟨1, 0, 0⟩ 1 1) ∧
    sdfElhJs Vec3.zero Vec3.zero ⟨1, 0, 0⟩ 1 1 Vec3.zero = none ∧
    sdfElhJs Vec3.zero Vec3.zero ⟨1, 0, 0⟩ 1 1 ⟨2, 3, 5⟩ = none ∧
    ¬ jsLe (jsAbs (jsSub (sdfElhJs Vec3.zero Vec3.zero ⟨1, 0, 0⟩ 1 1 Vec3.zero)
        (sdfElhJs Vec3.zero Vec3.zero ⟨1, 0, 0⟩ 1 1 Vec3.zero)))
      (Vec3.zero.distanceTo Vec3.zero) := by
  have hlen : (⟨1, 0, 0⟩ : Vec3).length = 1 := by
    rw [Vec3.length]
    norm_num [Vec3.normSq, Vec3.dot]
  have hdq : (Vec3.zero.sub Vec3.zero).dot (Vec3.zero.sub Vec3.zero) = 0 := by
    norm_num [Vec3.sub, Vec3.dot, Vec3.zero]
  have hnan : ∀ x, sdfElhJs Vec3.zero Vec3.zero ⟨1, 0, 0⟩ 1 1 x = none := by
    intro x
    simp only [sdfElhJs, if_pos hdq]
  refine ⟨?_, ?_, ?_, hnan Vec3.zero, hnan ⟨2, 3, 5⟩, ?_⟩
  · simp only [wElhDeg, ShapeWF]
    exact ⟨hlen, by norm_num [Vec3.sub, Vec3.dot, Vec3.zero], by norm_num,
      by norm_num⟩
  · simp only [wElhDeg, ShapeNondeg]
    exact fun hne => hne rfl
  · simp only [createSdfElhJs]
    rw [if_neg (not_ne_iff.mpr hlen),
      if_neg (not_ne_iff.mpr (by norm_num [Vec3.sub, Vec3.dot, Vec3.zero])),
      if_neg (not_lt.mpr (show (0:ℝ) ≤ Vec3.zero.distanceTo Vec3.zero from
        Vec3.length_nonneg _))]
  · rw [hnan Vec3.zero]
    exact fun hfalse => hfalse

/-- C7, amended: every shape satisfying the constructor preconditions whose
ELH endpoints are distinct yields a 1-Lipschitz SDF from createSdf; the
degenerate ELH with q = p is the only accepted shape excluded, its SDF
being NaN everywhere. -/
theorem C7_sdf_one_lipschitz_nondegenerate (s : Shape) (hs : ShapeWF s)
    (_hnd : ShapeNondeg s) :
    ∃ f, createSdf s = Except.ok f ∧ ∀ x y, |f x - f y| ≤ x.distanceTo y :=
  createSdf_wf_lipschitz hs

/-- Witness for the amended C7 at a concrete nondegenerate ELH. -/
theorem C7_nondegenerate_witness :
    ShapeWF wElhGood ∧ ShapeNondeg wElhGood ∧
    ∃ f, createSdf wElhGood = Except.ok f ∧
      ∀ x y, |f x - f y| ≤ x.distanceTo y := by
  have hwf : ShapeWF wElhGood := by
    simp only [wElhGood, ShapeWF]
    refine ⟨?_, ?_, by norm_num, by norm_num⟩
    · rw [Vec3.length]
      norm_num [Vec3.normSq, Vec3.dot]
    · norm_num [Vec3.sub, Vec3.dot, Vec3.zero]
  have hnd : ShapeNondeg wElhGood := by
    simp only [wElhGood, ShapeNondeg]
    intro h
    have hy := congrArg Vec3.y h
    norm_num [Vec3.zero] at hy
  exact ⟨hwf, hnd, C7_sdf_one_lipschitz_nondegenerate wElhGood hwf hnd⟩

/-- C8: the set of cells fillShape writes with mode inside is contained in
the set for nearest, which is contained in the set for outside; the three
modes run the traversal at offsets -res*sqrt(3)/2, 0, +res*sqrt(3)/2 over
the same shape SDF. -/
theorem C8_fillShape_subset {α : Type} (g : VoxelGridCpu α) (s : Shape) (v : α)
    (sdf : Vec3 → ℝ) (hsdf : createSdf s = Except.ok sdf) (hres : 0 < g.res) :
    g.fillShape s v "inside" = Except.ok (fillRun g sdf (-(g.res * 0.5 * Real.sqrt 3)) v) ∧
    g.fillShape s v "nearest" = Except.ok (fillRun g sdf 0 v) ∧
    g.fillShape s v "outside" = Except.ok (fillRun g sdf (g.res * 0.5 * Real.sqrt 3) v) ∧
    (∀ c ∈ visitList g sdf (-(g.res * 0.5 * Real.sqrt 3)), c ∈ visitList g sdf 0) ∧
    (∀ c ∈ visitList g sdf 0, c ∈ visitList g sdf (g.res * 0.5 * Real.sqrt 3)) := by
  obtain ⟨ho, hi, hn, _⟩ := fillShape_mode_eq g s v sdf hsdf
  have hd : 0 ≤ g.res * 0.5 * Real.sqrt 3 := by positivity
  have hmono : ∀ o1 o2 : ℝ, o1 ≤ o2 →
      ∀ c ∈ visitList g sdf o1, c ∈ visitList g sdf o2 := by
    rintro o1 o2 h12 ⟨ix, iy, iz⟩ hc
    rw [mem_visitList] at hc ⊢
    exact ⟨hc.1, hc.2.1, hc.2.2.1, le_trans hc.2.2.2.1 h12,
      le_trans hc.2.2.2.2 (by linarith)⟩
  exact ⟨hi, hn, ho, hmono _ _ (by linarith), hmono _ _ hd⟩

/-- Witness for C8 at a concrete grid and box shape. -/
theorem C8_witness :
    createSdf wBox = Except.ok (sdfBox Vec3.zero ⟨1, 0, 0⟩ ⟨0, 1, 0⟩ ⟨0, 0, 1⟩) ∧
    (0:ℝ) < wGrid1.res ∧
    VoxelGridCpu.fillShape wGrid1 wBox 7 "nearest" =
      Except.ok (fillRun wGrid1 (sdfBox Vec3.zero ⟨1, 0, 0⟩ ⟨0, 1, 0⟩ ⟨0, 0, 1⟩) 0 7) := by
  have hsdf : createSdf wBox =
      Except.ok (sdfBox Vec3.zero ⟨1, 0, 0⟩ ⟨0, 1, 0⟩ ⟨0, 0, 1⟩) := by
    simp only [wBox, createSdf]
    rw [if_neg (by norm_num [Vec3.dot])]
  have hres : (0:ℝ) < wGrid1.res := by norm_num [wGrid1]
  exact ⟨hsdf, hres, (C8_fillShape_subset wGrid1 wBox 7 _ hsdf hres).2.1⟩

/-- C10: the block-culled traversal only ever visits in-bounds cells, even
though the block lattice of floor(num/8)+1 blocks per axis always covers
strictly more than the grid extent on every axis. -/
theorem C10_traverse_in_bounds {α : Type} (g : VoxelGridCpu α) (sdf : Vec3 → ℝ)
    (offset : ℝ) :
    (visitList g sdf offset).Forall
      (fun c => c.1 < g.numX ∧ c.2.1 < g.numY ∧ c.2.2 < g.numZ) ∧
    g.numX < 8 * (g.numX / 8 + 1) ∧ g.numY < 8 * (g.numY / 8 + 1) ∧
    g.numZ < 8 * (g.numZ / 8 + 1) := by
  refine ⟨?_, by omega, by omega, by omega⟩
  rw [List.forall_iff_forall_mem]
  rintro ⟨ix, iy, iz⟩ hc
  rw [mem_visitList] at hc
  exact ⟨hc.1, hc.2.1, hc.2.2.1⟩

/-!
GPU dispatcher claims.
-/

/-- C5 (code bug): a dispatched map kernel binds p = cell_center(decompose(i))
where the WGSL cell_center is ofs + i * res, while the host grid convention
(VoxelGridCpu.centerOf and the class comment) is ofs + (i + 0.5) * res; at
cell (0,0,0) with res = 1 and zero offset the kernel sees (0,0,0) instead of
(0.5, 0.5, 0.5). -/
theorem C5_cell_center_mismatch :
    (∀ (body : Vec3 → ℝ → ℝ) (din dout : Nat → ℝ),
      runMapKernel body meta8 din dout 0 =
        body (cellCenterGpu meta8 (decomposeIx meta8 0)) (din 0)) ∧
    decomposeIx meta8 0 = (0, 0, 0) ∧
    cellCenterGpu meta8 (0, 0, 0) = Vec3.zero ∧
    hostGrid8.centerOf 0 0 0 = ⟨0.5, 0.5, 0.5⟩ ∧
    cellCenterGpu meta8 (0, 0, 0) ≠ hostGrid8.centerOf 0 0 0 := by
  have hgpu : cellCenterGpu meta8 (0, 0, 0) = Vec3.zero := by
    apply Vec3.ext_comp <;>
      norm_num [cellCenterGpu, Vec3.smul, Vec3.add, Vec3.zero, meta8]
  have hcpu : hostGrid8.centerOf 0 0 0 = ⟨0.5, 0.5, 0.5⟩ := by
    apply Vec3.ext_comp <;>
      norm_num [VoxelGridCpu.centerOf, Vec3.smul, Vec3.add, Vec3.addScalar,
        Vec3.zero, hostGrid8]
  refine ⟨?_, by decide, hgpu, hcpu, ?_⟩
  · intro body din dout
    rw [runMapKernel, if_pos (by decide : 0 < meta8.count)]
  · rw [hgpu, hcpu]
    intro h
    have h2 := congrArg Vec3.x h
    norm_num [Vec3.zero] at h2

/-- C6 (code bug): GpuKernels.reduce never returns the fold of the
registered operator; its uniform-buffer initializer reads the undefined
variable grid and the call always throws a ReferenceError. -/
theorem C6_reduce_throws :
    GpuKernels.reduce "min_ignore_invalid" distGrid8 =
      Except.error "ReferenceError: grid is not defined" := by
  simp [GpuKernels.reduce, registeredReduceFns]

/-- C3 (code bug): boundOfAxis on the example occupancy grid (only cell
(3,5,2) set, res = 1, zero offset, boundary nearest) does not return
min = max = 3.5: it never applies project_to_axis and its reduce calls
throw on the undefined variable grid, so the whole call errors. -/
theorem C3_boundOfAxis_throws :
    GpuKernels.boundOfAxis ⟨1, 0, 0⟩ c3grid "nearest" =
      Except.error "ReferenceError: grid is not defined" := by
  simp [GpuKernels.boundOfAxis, GpuKernels.reduce, registeredReduceFns]

theorem checkGridCompat_self (m : GpuMeta) : checkGridCompat m m = Except.ok m := by
  rw [checkGridCompat, if_neg (by simp), if_neg (by simp), if_neg (by simp)]

theorem checkGridCompat_error_of_mismatch {g1 g2 : GpuMeta}
    (h : g1.res ≠ g2.res ∨ g1.numX ≠ g2.numX ∨ g1.numY ≠ g2.numY ∨
      g1.numZ ≠ g2.numZ ∨ g1.ofs ≠ g2.ofs) :
    ∃ e, checkGridCompat g1 g2 = Except.error e := by
  by_cases h1 : g1.numX ≠ g2.numX ∨ g1.numY ≠ g2.numY ∨ g1.numZ ≠ g2.numZ
  · exact ⟨_, by rw [checkGridCompat, if_pos h1]⟩
  · by_cases h2 : g1.ofs.x ≠ g2.ofs.x ∨ g1.ofs.y ≠ g2.ofs.y ∨ g1.ofs.z ≠ g2.ofs.z
    · exact ⟨_, by rw [checkGridCompat, if_neg h1, if_pos h2]⟩
    · have hres : g1.res ≠ g2.res := by
        push_neg at h1 h2
        rcases h with h | h | h | h | h
        · exact h
        · exact absurd h1.1 h
        · exact absurd h1.2.1 h
        · exact absurd h1.2.2 h
        · exact absurd (Vec3.ext_comp h2.1 h2.2.1 h2.2.2) h
      exact ⟨_, by rw [checkGridCompat, if_neg h1, if_neg h2, if_pos hres]⟩

/-- C9: if the grids passed to map or map2 differ in res, numX, numY, numZ
or ofs, the call fails with a structural error; the compatibility check is
the first step of the dispatcher, before any allocation or kernel dispatch,
so no grid contents change. -/
theorem C9_compat_checked (body : Vec3 → ℝ → ℝ) (body2 : Vec3 → ℝ → ℝ → ℝ)
    (st : GpuStore ℝ) (i o : Nat) (gin gout : VoxelGridGpu ℝ)
    (hi : st.mem i = some gin) (ho : st.mem o = some gout)
    (hmm : gin.meta.res ≠ gout.meta.res ∨ gin.meta.numX ≠ gout.meta.numX ∨
      gin.meta.numY ≠ gout.meta.numY ∨ gin.meta.numZ ≠ gout.meta.numZ ∨
      gin.meta.ofs ≠ gout.meta.ofs) :
    (∃ e, GpuKernels.map body i o st = Except.error e) ∧
    (∃ e, GpuKernels.map2 body2 i o o st = Except.error e) := by
  obtain ⟨e, he⟩ := checkGridCompat_error_of_mismatch hmm
  constructor
  · refine ⟨e, ?_⟩
    simp only [GpuKernels.map, hi, ho, he]
  · refine ⟨e, ?_⟩
    simp only [GpuKernels.map2, hi, ho, he]

/-- Witness for C9: a store with grids of resolution 1 and 2 makes both
map and map2 fail. -/
theorem C9_witness :
    (∃ e, GpuKernels.map negBody 0 1 c9store = Except.error e) ∧
    (∃ e, GpuKernels.map2 (fun _ v1 _ => v1) 0 1 1 c9store = Except.error e) := by
  have h0 : c9store.mem 0 = some ⟨meta1, fun _ => 0⟩ := by norm_num [c9store]
  have h1 : c9store.mem 1 = some ⟨⟨2, 1, 1, 1, Vec3.zero⟩, fun _ => 0⟩ := by
    norm_num [c9store]
  exact C9_compat_checked negBody (fun _ v1 _ => v1) c9store 0 1 _ _ h0 h1
    (Or.inl (by norm_num [meta1]))

theorem map_aliased_eq {α : Type} [Zero α] (body : Vec3 → α → α) (inId : Nat)
    (st0 : GpuStore α) (gin : VoxelGridGpu α) (hin : st0.mem inId = some gin)
    (hfresh : inId ≠ st0.next) :
    GpuKernels.map body inId inId st0 = Except.ok
      { next := st0.next + 1,
        mem := fun j =>
          if j = st0.next then
            some ⟨gin.meta, runMapKernel body gin.meta gin.data (fun _ => 0)⟩
          else st0.mem j } := by
  simp only [GpuKernels.map, hin, checkGridCompat_self]
  simp only [GpuKernels.createLike, GpuStore.update]
  norm_num [hfresh]
  funext j
  by_cases hj : j = st0.next <;> simp [hj]

theorem map_outofplace_eq {α : Type} [Zero α] (body : Vec3 → α → α)
    (inId outId : Nat) (st0 : GpuStore α) (gin gout : VoxelGridGpu α)
    (hin : st0.mem inId = some gin) (hout : st0.mem outId = some gout)
    (hne : outId ≠ inId)
    (hcompat : checkGridCompat gin.meta gout.meta = Except.ok gin.meta) :
    GpuKernels.map body inId outId st0 = Except.ok
      (st0.update outId ⟨gout.meta, runMapKernel body gin.meta gin.data gout.data⟩) := by
  simp only [GpuKernels.map, hin, hout, hcompat]
  simp only [if_neg hne, if_neg (Ne.symm hne), hout]

/-- C4 (code bug): running a registered map with in = out leaves the grid
holding its old contents (the copy-back guard at voxel.js line 887 compares
inBuf against the reassigned outBuf, so the temporary result is dropped),
while the same map run out-of-place into a fresh grid produces the mapped
value; for negate on a single cell holding 2.0, in-place keeps 2.0 but
out-of-place yields -2.0. -/
theorem C4_inplace_map_lost :
    (∃ st, GpuKernels.map negBody 0 0 c4storeA = Except.ok st ∧
      ∃ gr, st.mem 0 = some gr ∧ gr.data 0 = 2) ∧
    (∃ st, GpuKernels.map negBody 0 1 c4storeB = Except.ok st ∧
      ∃ gr, st.mem 1 = some gr ∧ gr.data 0 = -2) ∧
    (2:ℝ) ≠ -2 := by
  refine ⟨?_, ?_, by norm_num⟩
  · have hin : c4storeA.mem 0 = some ⟨meta1, fun _ => 2⟩ := by norm_num [c4storeA]
    have heq := map_aliased_eq negBody 0 c4storeA ⟨meta1, fun _ => 2⟩ hin
      (by norm_num [c4storeA])
    refine ⟨_, heq, ⟨meta1, fun _ => 2⟩, ?_, rfl⟩
    norm_num [c4storeA]
  · have hin : c4storeB.mem 0 = some ⟨meta1, fun _ => 2⟩ := by norm_num [c4storeB]
    have hout : c4storeB.mem 1 = some ⟨meta1, fun _ => 0⟩ := by norm_num [c4storeB]
    have heq := map_outofplace_eq negBody 0 1 c4storeB _ _ hin hout (by norm_num)
      (checkGridCompat_self meta1)
    refine ⟨_, heq, ⟨meta1, runMapKernel negBody meta1 (fun _ => 2) (fun _ => 0)⟩,
      ?_, ?_⟩
    · simp [GpuStore.update]
    · simp [runMapKernel, meta1, GpuMeta.count, negBody]

/-!
Jump-flood analysis: seed information travels at most one axis jump of the
current step per pass under the (valid) stale-read schedule.
-/

theorem composeIx_lt (m : GpuMeta) {a b c : Nat} (ha : a < m.numX) (hb : b < m.numY)
    (hc : c < m.numZ) : composeIx m (a, b, c) < m.count := by
  simp only [composeIx, GpuMeta.count]
  calc a + b * m.numX + c * m.numX * m.numY
      < m.numX + b * m.numX + c * m.numX * m.numY := by
        exact Nat.add_lt_add_right (Nat.add_lt_add_right ha _) _
    _ = (1 + b) * m.numX + c * m.numX * m.numY := by ring
    _ ≤ m.numY * m.numX + c * m.numX * m.numY := by
        exact Nat.add_le_add_right (Nat.mul_le_mul_right _ (by omega)) _
    _ = (1 + c) * (m.numX * m.numY) := by ring
    _ ≤ m.numZ * (m.numX * m.numY) := Nat.mul_le_mul_right _ (by omega)
    _ = m.numX * m.numY * m.numZ := by ring

theorem decompose_compose (m : GpuMeta) {a b c : Nat} (ha : a < m.numX)
    (hb : b < m.numY) : decomposeIx m (composeIx m (a, b, c)) = (a, b, c) := by
  have hx : 0 < m.numX := by omega
  have hy : 0 < m.numY := by omega
  have hform : a + b * m.numX + c * m.numX * m.numY =
      a + (b + c * m.numY) * m.numX := by ring
  have h1 : (a + (b + c * m.numY) * m.numX) % m.numX = a := by
    rw [Nat.add_mul_mod_self_right, Nat.mod_eq_of_lt ha]
  have h2 : (a + (b + c * m.numY) * m.numX) / m.numX % m.numY = b := by
    rw [Nat.add_mul_div_right _ _ hx, Nat.div_eq_of_lt ha, Nat.zero_add,
      Nat.add_mul_mod_self_right, Nat.mod_eq_of_lt hb]
  have h3 : (a + (b + c * m.numY) * m.numX) / (m.numX * m.numY) = c := by
    have hab : a + b * m.numX < m.numX * m.numY := by
      have hstep : a + b * m.numX < m.numX + b * m.numX :=
        Nat.add_lt_add_right ha _
      have hexp : m.numX + b * m.numX = (1 + b) * m.numX := by ring
      have hle : (1 + b) * m.numX ≤ m.numY * m.numX :=
        Nat.mul_le_mul_right _ (by omega)
      calc a + b * m.numX < m.numX + b * m.numX := hstep
        _ = (1 + b) * m.numX := hexp
        _ ≤ m.numY * m.numX := hle
        _ = m.numX * m.numY := Nat.mul_comm _ _
    have hform2 : a + (b + c * m.numY) * m.numX =
        a + b * m.numX + c * (m.numX * m.numY) := by ring
    rw [hform2, Nat.add_mul_div_right _ _ (Nat.mul_pos hx hy),
      Nat.div_eq_of_lt hab, Nat.zero_add]
  simp only [decomposeIx, composeIx]
  rw [hform, h1, h2, h3]

theorem jfStep_cases (m : GpuMeta) (step : Nat) (df : Nat → Vec4)
    (ix3 : Nat × Nat × Nat) (p : Vec3) (sd : Vec4) (o : Int × Int × Int) :
    jfStep m step df ix3 p sd o = sd ∨
    (jfNeighborOk m step df ix3 o ∧ 0 ≤ (jfStep m step df ix3 p sd o).w) := by
  simp only [jfStep]
  split_ifs with h1 h2 h3
  · exact Or.inl rfl
  · exact Or.inl rfl
  · refine Or.inr ⟨?_, ?_⟩
    · push_neg at h1
      exact ⟨h1.1, h1.2.1, h1.2.2.1, h1.2.2.2.1, h1.2.2.2.2.1, h1.2.2.2.2.2,
        not_lt.mp h2⟩
    · exact Vec3.length_nonneg _
  · exact Or.inl rfl

theorem jf_fold_valid {m : GpuMeta} {step : Nat} {df : Nat → Vec4}
    {ix3 : Nat × Nat × Nat} {p : Vec3} :
    ∀ (l : List (Int × Int × Int)) (sd : Vec4),
      0 ≤ (l.foldl (jfStep m step df ix3 p) sd).w →
      0 ≤ sd.w ∨ ∃ o ∈ l, jfNeighborOk m step df ix3 o := by
  intro l
  induction l with
  | nil =>
    intro sd h
    exact Or.inl h
  | cons o l ih =>
    intro sd h
    rw [List.foldl_cons] at h
    rcases ih (jfStep m step df ix3 p sd o) h with h2 | ⟨o2, ho2, hok⟩
    · rcases jfStep_cases m step df ix3 p sd o with heq | ⟨hok, _⟩
      · rw [heq] at h2
        exact Or.inl h2
      · exact Or.inr ⟨o, List.mem_cons_self o l, hok⟩
    · exact Or.inr ⟨o2, List.mem_cons_of_mem o ho2, hok⟩

theorem jf_fold_keep {m : GpuMeta} {step : Nat} {df : Nat → Vec4}
    {ix3 : Nat × Nat × Nat} {p : Vec3} :
    ∀ (l : List (Int × Int × Int)) (sd : Vec4),
      (l.foldl (jfStep m step df ix3 p) sd).w < 0 →
      l.foldl (jfStep m step df ix3 p) sd = sd := by
  intro l
  induction l with
  | nil =>
    intro sd _
    rfl
  | cons o l ih =>
    intro sd h
    rw [List.foldl_cons] at h ⊢
    have h2 := ih (jfStep m step df ix3 p sd o) h
    rw [h2] at h ⊢
    rcases jfStep_cases m step df ix3 p sd o with heq | ⟨_, hw⟩
    · exact heq
    · linarith

theorem jumpFloodPass_L1 (m : GpuMeta) (step : Nat) (df : Nat → Vec4) (B : Nat)
    (hP : ∀ i, i < m.count → 0 ≤ (df i).w → cellL1 (decomposeIx m i) ≤ B) :
    ∀ i, i < m.count → 0 ≤ (jumpFloodPass m step df i).w →
      cellL1 (decomposeIx m i) ≤ B + step := by
  intro i hi hw
  simp only [jumpFloodPass, if_pos hi] at hw
  simp only [jumpFloodCell] at hw
  by_cases h0 : (df i).w = 0
  · rw [if_pos h0] at hw
    exact le_trans (hP i hi hw) (Nat.le_add_right _ _)
  · rw [if_neg h0] at hw
    rcases jf_fold_valid jfOffsets (df i) hw with hsd | ⟨o, ho, hok⟩
    · exact le_trans (hP i hi hsd) (Nat.le_add_right _ _)
    · obtain ⟨hx0, hy0, hz0, hxlt, hylt, hzlt, hvw⟩ := hok
      have hxN : (((decomposeIx m i).1 : Int) + o.1 * (step : Int)).toNat < m.numX := by
        omega
      have hyN : (((decomposeIx m i).2.1 : Int) + o.2.1 * (step : Int)).toNat < m.numY := by
        omega
      have hzN : (((decomposeIx m i).2.2 : Int) + o.2.2 * (step : Int)).toNat < m.numZ := by
        omega
      have hnlt := composeIx_lt m hxN hyN hzN
      have hB := hP _ hnlt hvw
      rw [decompose_compose m hxN hyN] at hB
      have hoo : o = ((-1 : Int), (0 : Int), (0 : Int)) ∨
          o = ((1 : Int), (0 : Int), (0 : Int)) ∨
          o = ((0 : Int), (-1 : Int), (0 : Int)) ∨
          o = ((0 : Int), (1 : Int), (0 : Int)) ∨
          o = ((0 : Int), (0 : Int), (-1 : Int)) ∨
          o = ((0 : Int), (0 : Int), (1 : Int)) := by
        simpa [jfOffsets] using ho
      rcases hoo with rfl | rfl | rfl | rfl | rfl | rfl <;>
        (simp only [cellL1] at hB ⊢; omega)

theorem jumpFloodPass_neg (m : GpuMeta) (step : Nat) (df : Nat → Vec4)
    (hN : ∀ i, (df i).w < 0 → df i = ⟨Vec3.zero, -1⟩) :
    ∀ i, (jumpFloodPass m step df i).w < 0 →
      jumpFloodPass m step df i = ⟨Vec3.zero, -1⟩ := by
  intro i hw
  simp only [jumpFloodPass] at hw ⊢
  by_cases hi : i < m.count
  · rw [if_pos hi] at hw ⊢
    simp only [jumpFloodCell] at hw ⊢
    by_cases h0 : (df i).w = 0
    · rw [if_pos h0] at hw ⊢
      exact hN i hw
    · rw [if_neg h0] at hw ⊢
      have hkeep := jf_fold_keep jfOffsets (df i) hw
      rw [hkeep] at hw ⊢
      exact hN i hw
  · rw [if_neg hi] at hw ⊢
    exact hN i hw

/-- C2 (code bug): on an 8x8x8 grid with res = 1 and a single seed at
(0,0,0), distField leaves cell (7,7,7) (linear index 511) at the invalid
marker -1 instead of the claimed Euclidean distance sqrt((7*1)^2*3).  The
kernel only inspects the six axis neighbors, so under the stale-read
schedule (a valid execution of the racy dispatch) a pass moves seed
information by at most one axis jump, and the three passes with steps
4, 2, 1 can only reach cells of L1 norm at most 7, while (7,7,7) has L1
norm 21. -/
theorem C2_distField_misses_cells :
    ∃ out, GpuKernels.distField seedGrid8 distGrid8 = Except.ok out ∧
      out.data 511 = -1 ∧ out.data 511 ≠ Real.sqrt ((7 * 1) ^ 2 * 3) := by
  have hc : checkGridCompat seedGrid8.meta distGrid8.meta = Except.ok meta8 :=
    checkGridCompat_self meta8
  have hclog : Nat.clog 2 (max meta8.numX (max meta8.numY meta8.numZ)) = 3 := by
    rw [show max meta8.numX (max meta8.numY meta8.numZ) = 8 from by decide]
    rw [show (8 : ℕ) = 2 ^ 3 by norm_num, Nat.clog_pow 2 3 (by norm_num)]
  set df0 : Nat → Vec4 :=
    runMapKernel dfInitBody meta8 seedGrid8.data (fun _ => ⟨Vec3.zero, 0⟩) with hdf0
  set df1 := jumpFloodPass meta8 4 df0 with hdf1
  set df2 := jumpFloodPass meta8 2 df1 with hdf2
  set df3 := jumpFloodPass meta8 1 df2 with hdf3
  have hP0 : ∀ i, i < meta8.count → 0 ≤ (df0 i).w →
      cellL1 (decomposeIx meta8 i) ≤ 0 := by
    intro i hi hw
    rw [hdf0] at hw
    simp only [runMapKernel, if_pos hi] at hw
    by_cases hseed : 0 < seedGrid8.data i
    · have hzero : i = 0 := by
        by_contra hne
        simp [seedGrid8, hne] at hseed
      subst hzero
      decide
    · rw [dfInitBody, if_neg hseed] at hw
      norm_num at hw
  have hN0 : ∀ i, (df0 i).w < 0 → df0 i = ⟨Vec3.zero, -1⟩ := by
    intro i hw
    rw [hdf0] at hw ⊢
    simp only [runMapKernel] at hw ⊢
    by_cases hi : i < meta8.count
    · rw [if_pos hi] at hw ⊢
      simp only [dfInitBody] at hw ⊢
      by_cases hseed : 0 < seedGrid8.data i
      · rw [if_pos hseed] at hw
        norm_num at hw
      · rw [if_neg hseed]
    · rw [if_neg hi] at hw
      norm_num at hw
  have hP1 : ∀ i, i < meta8.count → 0 ≤ (df1 i).w →
      cellL1 (decomposeIx meta8 i) ≤ 4 := by
    intro i hi hw
    have := jumpFloodPass_L1 meta8 4 df0 0 hP0 i hi (by rw [hdf1] at hw; exact hw)
    omega
  have hP2 : ∀ i, i < meta8.count → 0 ≤ (df2 i).w →
      cellL1 (decomposeIx meta8 i) ≤ 6 := by
    intro i hi hw
    have := jumpFloodPass_L1 meta8 2 df1 4 hP1 i hi (by rw [hdf2] at hw; exact hw)
    omega
  have hP3 : ∀ i, i < meta8.count → 0 ≤ (df3 i).w →
      cellL1 (decomposeIx meta8 i) ≤ 7 := by
    intro i hi hw
    have := jumpFloodPass_L1 meta8 1 df2 6 hP2 i hi (by rw [hdf3] at hw; exact hw)
    omega
  have hN1 : ∀ i, (df1 i).w < 0 → df1 i = ⟨Vec3.zero, -1⟩ := by
    simp only [hdf1]
    exact jumpFloodPass_neg meta8 4 df0 hN0
  have hN2 : ∀ i, (df2 i).w < 0 → df2 i = ⟨Vec3.zero, -1⟩ := by
    simp only [hdf2]
    exact jumpFloodPass_neg meta8 2 df1 hN1
  have hN3 : ∀ i, (df3 i).w < 0 → df3 i = ⟨Vec3.zero, -1⟩ := by
    simp only [hdf3]
    exact jumpFloodPass_neg meta8 1 df2 hN2
  have h511 : 511 < meta8.count := by decide
  have hwneg : (df3 511).w < 0 := by
    by_contra hcon
    push_neg at hcon
    have hb := hP3 511 h511 hcon
    rw [show decomposeIx meta8 511 = (7, 7, 7) from by decide] at hb
    simp only [cellL1] at hb
    omega
  have hinv := hN3 511 hwneg
  have hout511 : runMapKernel dfToDistBody meta8 df3 distGrid8.data 511 = -1 := by
    simp only [runMapKernel, if_pos h511, dfToDistBody]
    rw [hinv]
  refine ⟨⟨distGrid8.meta, runMapKernel dfToDistBody meta8 df3 distGrid8.data⟩,
    ?_, hout511, ?_⟩
  · simp only [GpuKernels.distField, hc]
    congr 2
    rw [hclog]
    rw [show List.range 3 = [0, 1, 2] from by decide]
    simp only [List.foldl_cons, List.foldl_nil]
    norm_num [hdf1, hdf2, hdf3, hdf0]
  · show runMapKernel dfToDistBody meta8 df3 distGrid8.data 511 ≠
      Real.sqrt ((7 * 1) ^ 2 * 3)
    rw [hout511]
    intro h
    have hnn := Real.sqrt_nonneg ((7 * 1 : ℝ) ^ 2 * 3)
    rw [← h] at hnn
    linarith

end

end Spark

